import Mathlib

/-!
Verification development for the oprq OpenAPI-to-React-Query generator core.

The definitions below are a shallow embedding of the generator's schema
resolution, operation analysis, identifier derivation and artifact
composition (src/src/cli/commands/init.ts concatenated modules: the
parser module with schemaToTypeString and extractAllSchemaNames, the
templates module with generateFileContent and its helpers, and
src/src/cli/commands/list.ts with generateOperationId, toPascalCase and
the placeholder generator).  JS objects indexed by string keys are
modelled as association lists looked up by first match, JS truthiness of
optional strings and arrays is modelled explicitly at each use site, and
the JS string operations used by the source are modelled by structurally
recursive char-list functions so that every definition evaluates by
kernel reduction.
-/

namespace Oprq

/-! ## JS string primitives -/

/-- ASCII-range behaviour of the JS toUpperCase on a single character,
written as an explicit table. -/
def jsUpperChar (c : Char) : Char :=
  if c = 'a' then 'A' else if c = 'b' then 'B' else if c = 'c' then 'C'
  else if c = 'd' then 'D' else if c = 'e' then 'E' else if c = 'f' then 'F'
  else if c = 'g' then 'G' else if c = 'h' then 'H' else if c = 'i' then 'I'
  else if c = 'j' then 'J' else if c = 'k' then 'K' else if c = 'l' then 'L'
  else if c = 'm' then 'M' else if c = 'n' then 'N' else if c = 'o' then 'O'
  else if c = 'p' then 'P' else if c = 'q' then 'Q' else if c = 'r' then 'R'
  else if c = 's' then 'S' else if c = 't' then 'T' else if c = 'u' then 'U'
  else if c = 'v' then 'V' else if c = 'w' then 'W' else if c = 'x' then 'X'
  else if c = 'y' then 'Y' else if c = 'z' then 'Z' else c

/-- ASCII-range behaviour of the JS toLowerCase on a single character. -/
def jsLowerChar (c : Char) : Char :=
  if c = 'A' then 'a' else if c = 'B' then 'b' else if c = 'C' then 'c'
  else if c = 'D' then 'd' else if c = 'E' then 'e' else if c = 'F' then 'f'
  else if c = 'G' then 'g' else if c = 'H' then 'h' else if c = 'I' then 'i'
  else if c = 'J' then 'j' else if c = 'K' then 'k' else if c = 'L' then 'l'
  else if c = 'M' then 'm' else if c = 'N' then 'n' else if c = 'O' then 'o'
  else if c = 'P' then 'p' else if c = 'Q' then 'q' else if c = 'R' then 'r'
  else if c = 'S' then 's' else if c = 'T' then 't' else if c = 'U' then 'u'
  else if c = 'V' then 'v' else if c = 'W' then 'w' else if c = 'X' then 'x'
  else if c = 'Y' then 'y' else if c = 'Z' then 'z' else c

/-- Model of the JS String.prototype.toUpperCase (ASCII range). -/
def jsToUpper (s : String) : String := ⟨s.data.map jsUpperChar⟩

/-- Model of the JS String.prototype.toLowerCase (ASCII range). -/
def jsToLower (s : String) : String := ⟨s.data.map jsLowerChar⟩

/-- Model of JS Array.prototype.join(sep). -/
def joinSep (sep : String) : List String → String
  | [] => ""
  | [x] => x
  | x :: y :: xs => x ++ sep ++ joinSep sep (y :: xs)

/-- Fuel-driven worker splitting on a non-empty separator.  The fuel is
always instantiated with more than the length of the string, which
suffices because every step consumes at least one character. -/
def splitFuel (sep : List Char) : Nat → List Char → List Char → List (List Char)
  | 0, cur, s => [cur.reverse ++ s]
  | _ + 1, cur, [] => [cur.reverse]
  | fuel + 1, cur, c :: rest =>
      if sep ≠ [] ∧ sep.isPrefixOf (c :: rest) then
        cur.reverse :: splitFuel sep fuel [] ((c :: rest).drop sep.length)
      else
        splitFuel sep fuel (c :: cur) rest

/-- Model of JS String.prototype.split(sep) for a non-empty separator. -/
def jsSplit (sep : String) (s : String) : List String :=
  (splitFuel sep.data (s.data.length + 1) [] s.data).map (fun l => ⟨l⟩)

/-- Fuel-driven worker replacing every occurrence of a pattern. -/
def replaceAllFuel (pat rep : List Char) : Nat → List Char → List Char
  | 0, s => s
  | _ + 1, [] => []
  | fuel + 1, c :: rest =>
      if pat ≠ [] ∧ pat.isPrefixOf (c :: rest) then
        rep ++ replaceAllFuel pat rep fuel ((c :: rest).drop pat.length)
      else
        c :: replaceAllFuel pat rep fuel rest

/-- Model of a JS global string replacement, s.replace(/pat/g, rep). -/
def jsReplaceAll (pat rep s : String) : String :=
  ⟨replaceAllFuel pat.data rep.data (s.data.length + 1) s.data⟩

/-- Worker for a first-occurrence replacement. -/
def replaceFirstChars (pat rep : List Char) : List Char → List Char
  | [] => if pat = [] then rep else []
  | c :: rest =>
      if pat.isPrefixOf (c :: rest) then rep ++ (c :: rest).drop pat.length
      else c :: replaceFirstChars pat rep rest

/-- Model of JS String.prototype.replace(pat, rep) with a plain string
pattern: only the first occurrence is replaced. -/
def jsReplaceFirst (pat rep s : String) : String :=
  ⟨replaceFirstChars pat.data rep.data s.data⟩

/-- Model of JS "str".repeat(n). -/
def strRepeat (s : String) : Nat → String
  | 0 => ""
  | n + 1 => s ++ strRepeat s n

/-- Model of JS String.prototype.startsWith. -/
def jsStartsWith (pre s : String) : Bool := pre.data.isPrefixOf s.data

/-- Model of JS String.prototype.endsWith. -/
def jsEndsWith (suf s : String) : Bool := suf.data.reverse.isPrefixOf s.data.reverse

/-! ## Data model (the TypeScript interfaces of the parser module) -/

/-- SchemaObject from the parser module: the subset of OpenAPI schema
fields the generator reads.  Recursive, hence an inductive with one
constructor; each field keeps its source name and optionality. -/
inductive SchemaObject : Type where
  | mk
    (type : Option String)
    (ref : Option String)
    (properties : Option (List (String × SchemaObject)))
    (items : Option SchemaObject)
    (required : Option (List String))
    (enum : Option (List String))
    (format : Option String)
    (allOf : Option (List SchemaObject))
    (oneOf : Option (List SchemaObject))
    (anyOf : Option (List SchemaObject))
    (additionalProperties : Option (Sum Bool SchemaObject))
    (nullable : Option Bool)

def SchemaObject.type : SchemaObject → Option String
  | .mk t _ _ _ _ _ _ _ _ _ _ _ => t

def SchemaObject.ref : SchemaObject → Option String
  | .mk _ r _ _ _ _ _ _ _ _ _ _ => r

def SchemaObject.properties : SchemaObject → Option (List (String × SchemaObject))
  | .mk _ _ pr _ _ _ _ _ _ _ _ _ => pr

def SchemaObject.items : SchemaObject → Option SchemaObject
  | .mk _ _ _ it _ _ _ _ _ _ _ _ => it

def SchemaObject.required : SchemaObject → Option (List String)
  | .mk _ _ _ _ rq _ _ _ _ _ _ _ => rq

def SchemaObject.enum : SchemaObject → Option (List String)
  | .mk _ _ _ _ _ en _ _ _ _ _ _ => en

def SchemaObject.format : SchemaObject → Option String
  | .mk _ _ _ _ _ _ fm _ _ _ _ _ => fm

def SchemaObject.allOf : SchemaObject → Option (List SchemaObject)
  | .mk _ _ _ _ _ _ _ ao _ _ _ _ => ao

def SchemaObject.oneOf : SchemaObject → Option (List SchemaObject)
  | .mk _ _ _ _ _ _ _ _ oo _ _ _ => oo

def SchemaObject.anyOf : SchemaObject → Option (List SchemaObject)
  | .mk _ _ _ _ _ _ _ _ _ an _ _ => an

def SchemaObject.additionalProperties : SchemaObject → Option (Sum Bool SchemaObject)
  | .mk _ _ _ _ _ _ _ _ _ _ ap _ => ap

def SchemaObject.nullable : SchemaObject → Option Bool
  | .mk _ _ _ _ _ _ _ _ _ _ _ nl => nl

/-- The components.schemas registry of a parsed document, name to schema. -/
abbrev Spec := List (String × SchemaObject)

/-! ## Reference helpers (getRefName, resolveRef) -/

/-- getRefName from the parser module: strips the components prefix
(the JS replace touches only the first occurrence). -/
def getRefName (ref : String) : String :=
  jsReplaceFirst "#/components/schemas/" "" ref

/-- resolveRef from the parser module. -/
def resolveRef (ref : String) (spec : Spec) : Option SchemaObject :=
  if ¬ jsStartsWith "#/components/schemas/" ref then none
  else List.lookup (getRefName ref) spec

/-- The bare-identifier test used for quoting struct keys,
regex caret a-zA-Z underscore dollar then alphanumeric run. -/
def isSafeKey (k : String) : Bool :=
  match k.data with
  | [] => false
  | c :: rest =>
      (c.isAlpha || c = '_' || c = '$') &&
        rest.all (fun d => d.isAlphanum || d = '_' || d = '$')

/-! ## A computable size on schema trees, for the resolution measure -/

mutual

def schemaSize : SchemaObject → Nat
  | .mk _ _ pr it _ _ _ ao oo an ap _ =>
      1 + schemaOptSize it + propsOptSize pr + listOptSize ao + listOptSize oo +
        listOptSize an + addPropsSize ap

def schemaOptSize : Option SchemaObject → Nat
  | none => 1
  | some s => 1 + schemaSize s

def propsOptSize : Option (List (String × SchemaObject)) → Nat
  | none => 1
  | some l => 1 + propsListSize l

def propsListSize : List (String × SchemaObject) → Nat
  | [] => 1
  | kv :: rest => 1 + schemaSize kv.2 + propsListSize rest

def listOptSize : Option (List SchemaObject) → Nat
  | none => 1
  | some l => 1 + schemaListSize l

def schemaListSize : List SchemaObject → Nat
  | [] => 1
  | s :: rest => 1 + schemaSize s + schemaListSize rest

def addPropsSize : Option (Sum Bool SchemaObject) → Nat
  | none => 1
  | some (Sum.inl _) => 1
  | some (Sum.inr s) => 2 + schemaSize s

end

/-! ## Termination measure for reference expansion

The source breaks reference cycles through the visiting set: a reference
is followed only when its name is not on the visiting list, and the name
is added for the recursive call.  The measure below therefore combines
the number of registry keys not yet visited with the structural size of
the current node; following a reference pays one registry key, and any
registry schema it may uncover is bounded by the largest schema stored
in the registry. -/

/-- Registry keys not excluded by the visiting list. -/
def unvisitedCount (spec : Spec) (visited : List String) : Nat :=
  ((spec.map Prod.fst).filter (fun k => decide (k ∉ visited))).length

/-- Size of the largest schema stored in the registry. -/
def specMaxSize (spec : Spec) : Nat :=
  spec.foldr (fun kv acc => max (schemaSize kv.2) acc) 0

/-- The combined resolution measure. -/
def stsMeasure (schema : Option SchemaObject) (spec : Spec) (visited : List String) : Nat :=
  unvisitedCount spec visited * (specMaxSize spec + 1) + schemaOptSize schema

/-! ## schemaToTypeString

Model of schemaToTypeString from the parser module.  The recursion is
driven by an explicit step budget; the budget is always instantiated
with one more than the resolution measure, which the lemmas below show
is enough for the function to satisfy exactly the recursion written in
the source on every input (the budget exhaustion branch is unreachable,
and any two sufficient budgets agree). -/

def stsFuel : Nat → Option SchemaObject → Spec → Nat → List String → String
  | 0, _, _, _, _ => "unknown"
  | _ + 1, none, _, _, _ => "unknown"
  | fuel + 1, some s, spec, depth, visited =>
    if s.ref.getD "" ≠ "" then
      -- reference node: resolve, breaking cycles through the visiting list
      if getRefName (s.ref.getD "") ∈ visited then getRefName (s.ref.getD "")
      else
        match resolveRef (s.ref.getD "") spec with
        | some resolved =>
            stsFuel fuel (some resolved) spec depth (getRefName (s.ref.getD "") :: visited)
        | none => getRefName (s.ref.getD "")
    else
      match s.allOf with
      | some members =>
          joinSep " & " (members.map (fun m => stsFuel fuel (some m) spec depth visited))
      | none =>
      match s.oneOf with
      | some members =>
          joinSep " | " (members.map (fun m => stsFuel fuel (some m) spec depth visited))
      | none =>
      match s.anyOf with
      | some members =>
          joinSep " | " (members.map (fun m => stsFuel fuel (some m) spec depth visited))
      | none =>
      -- the switch on schema.type, written as a comparison chain
      if s.type = some "string" then
        (match s.enum with
        | some es => joinSep " | " (es.map (fun e => "\"" ++ e ++ "\""))
        | none =>
          if s.format = some "binary" then "Blob"
          else if s.format = some "date-time" ∨ s.format = some "date" then "string"
          else "string")
      else if s.type = some "integer" then "number"
      else if s.type = some "number" then "number"
      else if s.type = some "boolean" then "boolean"
      else if s.type = some "array" then stsFuel fuel s.items spec depth visited ++ "[]"
      else if s.type = some "object" then
        (match s.properties with
        | none =>
            (match s.additionalProperties with
            | some (Sum.inl true) => "Record<string, unknown>"
            | some (Sum.inr ap) =>
                "Record<string, " ++ stsFuel fuel (some ap) spec (depth + 1) visited ++ ">"
            | _ => "Record<string, unknown>")
        | some props =>
            if depth > 3 then "object"
            else
              "\x7b " ++
                joinSep "; " (props.map (fun kv =>
                  let optional := if (s.required.getD []).contains kv.1 then "" else "?"
                  let nullable := if kv.2.nullable = some true then " | null" else ""
                  let ty := stsFuel fuel (some kv.2) spec (depth + 1) visited
                  let safeKey := if isSafeKey kv.1 then kv.1 else "\"" ++ kv.1 ++ "\""
                  safeKey ++ optional ++ ": " ++ ty ++ nullable)) ++ " \x7d")
      else if s.nullable = some true then "unknown | null" else "unknown"

/-- schemaToTypeString with its sufficient step budget; the default
arguments of the source (depth 0, empty visiting set) are supplied at
the call sites below exactly where the source relies on them. -/
def schemaToTypeString (schema : Option SchemaObject) (spec : Spec) (depth : Nat)
    (visited : List String) : String :=
  stsFuel (stsMeasure schema spec visited + 1) schema spec depth visited

/-! ## Schema node builders used to state the mapping rules -/

/-- A node carrying only a declared type. -/
def typedSchema (t : String) : SchemaObject :=
  .mk (some t) none none none none none none none none none none none

/-- A string node carrying an enumeration. -/
def strEnumSchema (es : List String) : SchemaObject :=
  .mk (some "string") none none none none (some es) none none none none none none

/-- A string node carrying a format. -/
def strFormatSchema (f : String) : SchemaObject :=
  .mk (some "string") none none none none none (some f) none none none none none

/-- An array node with the given items. -/
def arraySchema (items : Option SchemaObject) : SchemaObject :=
  .mk (some "array") none none items none none none none none none none none

/-- An object node with no properties and the given additionalProperties. -/
def objNoProps (ap : Option (Sum Bool SchemaObject)) : SchemaObject :=
  .mk (some "object") none none none none none none none none none ap none

/-- A node with no declared type and the nullable flag set. -/
def nullableOnlySchema : SchemaObject :=
  .mk none none none none none none none none none none none (some true)

/-- A node with no information at all. -/
def emptySchema : SchemaObject :=
  .mk none none none none none none none none none none none none

/-- A plain internal reference node. -/
def refSchema (n : String) : SchemaObject :=
  .mk none (some ("#/components/schemas/" ++ n)) none none none none none none none none
    none none

/-! ## Identifier derivation (toPascalCase, generateOperationId) -/

/-- Worker for the global regex replace of a dash or underscore followed
by any character with the upper-cased character (a trailing separator
with nothing after it is left alone, as the regex needs a following
character). -/
def collapseSeparators : List Char → List Char
  | [] => []
  | [c] => [c]
  | c :: d :: rest =>
      if c = '-' ∨ c = '_' then jsUpperChar d :: collapseSeparators rest
      else c :: collapseSeparators (d :: rest)

/-- Worker for the regex replace of the leading character with its
upper-cased form. -/
def capitalizeFirstChar : List Char → List Char
  | [] => []
  | c :: rest => jsUpperChar c :: rest

/-- toPascalCase as written identically in the templates module and in
list.ts: collapse every dash-or-underscore-plus-character pair to the
upper-cased character, then capitalize the first character. -/
def toPascalCase (str : String) : String :=
  ⟨capitalizeFirstChar (collapseSeparators str.data)⟩

/-- The spec sentence's description of the pascal variant, stated for
comparison: the raw identifier with only its first character
capitalized and every other character unchanged. -/
def specFirstCharCapitalized (str : String) : String :=
  ⟨capitalizeFirstChar str.data⟩

/-- generateOperationId from list.ts: lowercase method plus the
case-converted path tokens, with placeholder segments prefixed By. -/
def generateOperationId (method : String) (apiPath : String) : String :=
  let pathParts := ((jsSplit "/" apiPath).filter (fun p => p ≠ "")).map (fun part =>
    if jsStartsWith "\x7b" part && jsEndsWith "\x7d" part then
      "By" ++ toPascalCase ⟨(part.data.drop 1).dropLast⟩
    else toPascalCase part)
  jsToLower method ++ joinSep "" pathParts

/-! ## Operation data model (the TypeScript interfaces of the parser module) -/

/-- ParameterObject; the source field named in is spelled in_ here
because in is reserved in Lean. -/
structure ParameterObject where
  name : String
  in_ : String
  required : Option Bool
  schema : Option SchemaObject

/-- One media-type entry of a content record carries an optional
schema; a content record is the ordered list of its entries. -/
abbrev ContentMap := List (String × Option SchemaObject)

/-- RequestBodyObject. -/
structure RequestBodyObject where
  required : Option Bool
  content : Option ContentMap

/-- ResponseObject; the description field is never read by any embedded
function and is omitted. -/
structure ResponseObject where
  content : Option ContentMap

/-- OperationObject, restricted to the fields the generator reads. -/
structure OperationObject where
  operationId : Option String
  summary : Option String
  parameters : Option (List ParameterObject)
  requestBody : Option RequestBodyObject
  responses : Option (List (String × ResponseObject))

/-- The generate block of the configuration. -/
structure HookOptions where
  queryHook : Option Bool
  mutationHook : Option Bool
  suspenseHook : Option Bool
  infiniteQueryHook : Option Bool

/-- The React Query target description. -/
structure ReactQueryConfig where
  version : String
  importPath : String

/-! ## Response analysis (getFirstSchema, getSuccessResponse, getErrorSchemas) -/

/-- getFirstSchema from the templates module: prefer the
application/json entry when its schema is present, else take the first
entry's schema (the JS guard on the first key is a truthiness test, so
an empty-string content-type key yields undefined). -/
def getFirstSchema (content : Option ContentMap) : Option SchemaObject :=
  match content with
  | none => none
  | some entries =>
    match List.lookup "application/json" entries with
    | some (some s) => some s
    | _ =>
      match entries with
      | [] => none
      | (k, s) :: _ => if k = "" then none else s

/-- The result record of getSuccessResponse. -/
structure ResponseInfo where
  schema : Option SchemaObject
  statusCode : String
  isNoContent : Bool

/-- getSuccessResponse from the templates module: 204 first, then the
explicit codes 200, 201, 202, 203 in order, then the 2XX wildcard, then
default provided neither the 4XX nor the 5XX wildcard entry exists. -/
def getSuccessResponse (responses : Option (List (String × ResponseObject))) : ResponseInfo :=
  match responses with
  | none => ⟨none, "200", false⟩
  | some rs =>
    match List.lookup "204" rs with
    | some _ => ⟨none, "204", true⟩
    | none =>
      match ["200", "201", "202", "203"].findSome?
          (fun c => (List.lookup c rs).map (fun r => (c, r))) with
      | some (c, r) => ⟨getFirstSchema r.content, c, false⟩
      | none =>
        match List.lookup "2XX" rs with
        | some r => ⟨getFirstSchema r.content, "2XX", false⟩
        | none =>
          match List.lookup "default" rs, List.lookup "4XX" rs, List.lookup "5XX" rs with
          | some r, none, none => ⟨getFirstSchema r.content, "default", false⟩
          | _, _, _ => ⟨none, "200", false⟩

/-- Leading-digit model of parseInt(code, 10) on a response-map key. -/
def digitsToNat : List Char → Nat → Nat
  | [], acc => acc
  | c :: rest, acc => digitsToNat rest (acc * 10 + (c.toNat - '0'.toNat))

def parseIntPrefix (s : String) : Option Nat :=
  let ds := s.data.takeWhile (fun c => c.isDigit)
  if ds = [] then none else some (digitsToNat ds 0)

/-- getErrorSchemas from the templates module: every 4XX or 5XX
wildcard entry and every numeric 4xx or 5xx code contributes its first
schema; when nothing was collected a default entry is used alone.  (The
source also accumulates an errorCodes array it never reads; it is
omitted.) -/
def getErrorSchemas (responses : Option (List (String × ResponseObject))) :
    List SchemaObject :=
  match responses with
  | none => []
  | some rs =>
    let base := rs.foldl (fun acc kv =>
      if kv.1 = "4XX" ∨ kv.1 = "5XX" then
        match getFirstSchema kv.2.content with
        | some s => acc ++ [s]
        | none => acc
      else
        match parseIntPrefix kv.1 with
        | some numCode =>
            if 400 ≤ numCode ∧ numCode < 600 then
              match getFirstSchema kv.2.content with
              | some s => acc ++ [s]
              | none => acc
            else acc
        | none => acc) []
    if base.length = 0 then
      match List.lookup "default" rs with
      | some r =>
          match getFirstSchema r.content with
          | some s => [s]
          | none => []
      | none => []
    else base

/-! ## The error-union rendering with its duplicate filter -/

/-- The JS duplicate filter idiom, keeping an element exactly when its
first occurrence index is its own index. -/
def dedupFirst (l : List String) : List String :=
  (l.enum.filter (fun p => l.indexOf p.2 == p.1)).map Prod.snd

/-- The members of the rendered error union, in order, after the
duplicate filter. -/
def errorTypeMembers (responses : Option (List (String × ResponseObject))) (spec : Spec) :
    List String :=
  dedupFirst ((getErrorSchemas responses).map (fun sch => schemaToTypeString (some sch) spec 0 []))

/-- The rendered ErrorResponse type of generateFileContent. -/
def errorTypeOf (responses : Option (List (String × ResponseObject))) (spec : Spec) : String :=
  if (getErrorSchemas responses).length > 0 then joinSep " | " (errorTypeMembers responses spec)
  else "unknown"

/-- The rendered Response type of generateFileContent: void on 204, the
resolved success schema otherwise, void when there is none. -/
def responseTypeOf (info : ResponseInfo) (spec : Spec) : String :=
  if info.isNoContent then "void"
  else
    match info.schema with
    | some sch => schemaToTypeString (some sch) spec 0 []
    | none => "void"

/-! ## Referenced-schema collection (extractAllSchemaNames)

The source's collectRefs walks a schema, recording every reference name
it has not seen before and expanding the referenced registry schema
in place before continuing with the node's own children.  This
depth-first traversal is modelled by an explicit worklist (the call
stack), with a step budget that dominates the same measure used for
schemaToTypeString: following a fresh resolvable reference pays one
registry key, and every other step shrinks the worklist. -/

/-- The children collectRefs visits inside one node, in source order:
items, property values, allOf, oneOf, anyOf, schema-valued
additionalProperties. -/
def schemaChildren (s : SchemaObject) : List (Option SchemaObject) :=
  [s.items] ++ ((s.properties.getD []).map (fun kv => some kv.2)) ++
    ((s.allOf.getD []).map some) ++ ((s.oneOf.getD []).map some) ++
    ((s.anyOf.getD []).map some) ++
    (match s.additionalProperties with
     | some (Sum.inr a) => [some a]
     | _ => [])

/-- Budget-driven depth-first worklist walk of collectRefs. -/
def collectFuel : Nat → Spec → List (Option SchemaObject) → List String → List String
  | 0, _, _, names => names
  | _ + 1, _, [], names => names
  | fuel + 1, spec, none :: rest, names => collectFuel fuel spec rest names
  | fuel + 1, spec, some s :: rest, names =>
      if s.ref.getD "" ≠ "" then
        if getRefName (s.ref.getD "") ∈ names then
          collectFuel fuel spec (schemaChildren s ++ rest) names
        else
          match List.lookup (getRefName (s.ref.getD "")) spec with
          | some resolved =>
              collectFuel fuel spec (some resolved :: (schemaChildren s ++ rest))
                (names ++ [getRefName (s.ref.getD "")])
          | none =>
              collectFuel fuel spec (schemaChildren s ++ rest)
                (names ++ [getRefName (s.ref.getD "")])
      else
        collectFuel fuel spec (schemaChildren s ++ rest) names

/-- Summed sizes of a worklist. -/
def wlSize (l : List (Option SchemaObject)) : Nat := (l.map schemaOptSize).sum

/-- The worklist measure: every collectFuel step strictly decreases it,
so one more than it is a sufficient budget. -/
def collectMeasure (spec : Spec) (wl : List (Option SchemaObject)) (names : List String) : Nat :=
  unvisitedCount spec names * (specMaxSize spec + 2) + wlSize wl

/-- collectRefs of the parser module, applied to one root schema with
an incoming set of already-recorded names (the JS Set keeps insertion
order, modelled by appending fresh names). -/
def collectRefs (spec : Spec) (schema : Option SchemaObject) (names : List String) :
    List String :=
  collectFuel (collectMeasure spec [schema] names + 1) spec [schema] names

/-- The application/json schema of a content record, as read by
extractAllSchemaNames. -/
def jsonSchemaOf (content : Option ContentMap) : Option SchemaObject :=
  (content.bind (fun c => List.lookup "application/json" c)).join

/-- extractAllSchemaNames from the parser module: parameters first, then
the application/json request-body schema, then every response's
application/json schema, all sharing one growing name set. -/
def extractAllSchemaNames (operation : OperationObject) (spec : Spec) : List String :=
  let n1 := (operation.parameters.getD []).foldl (fun acc p => collectRefs spec p.schema acc) []
  let n2 := collectRefs spec (jsonSchemaOf (operation.requestBody.bind (fun rb => rb.content))) n1
  (operation.responses.getD []).foldl
    (fun acc kv => collectRefs spec (jsonSchemaOf kv.2.content) acc) n2

/-- Model of typeString.slice(2, -2). -/
def jsSlice2m2 (s : String) : String := ⟨(s.data.drop 2).take (s.data.length - 4)⟩

/-- generateTypeDefinition from the parser module. -/
def generateTypeDefinition (name : String) (schema : SchemaObject) (spec : Spec) : String :=
  let typeString := schemaToTypeString (some schema) spec 0 []
  if ¬ (jsStartsWith "\x7b" typeString = true) then
    "export type " ++ name ++ " = " ++ typeString ++ ";"
  else
    let props := jsSlice2m2 typeString
    let formattedProps := joinSep "\n"
      (((jsSplit "; " props).filter (fun p => p ≠ "")).map (fun prop => "  " ++ prop ++ ";"))
    "export interface " ++ name ++ " \x7b\n" ++ formattedProps ++ "\n\x7d"

/-- generateSchemaDefinitions from the templates module. -/
def generateSchemaDefinitions (schemaNames : List String) (spec : Spec) : String :=
  if schemaNames.length = 0 then ""
  else
    joinSep "\n\n" (schemaNames.filterMap (fun name =>
      (List.lookup name spec).map (fun schema => generateTypeDefinition name schema spec)))

/-! ## The artifact composer (generateFileContent and its helpers) -/

/-- The operation identifier: the declared id when truthy, else the
method concatenated with the path with every slash turned into an
underscore (the init.ts fallback). -/
def operationIdOf (operation : OperationObject) (method apiPath : String) : String :=
  match operation.operationId with
  | some s => if s = "" then method ++ jsReplaceAll "/" "_" apiPath else s
  | none => method ++ jsReplaceAll "/" "_" apiPath

/-- The path-parameter partition of the declared parameters. -/
def pathParamsOf (operation : OperationObject) : List ParameterObject :=
  (operation.parameters.getD []).filter (fun p => p.in_ == "path")

/-- The query-parameter partition of the declared parameters. -/
def queryParamsOf (operation : OperationObject) : List ParameterObject :=
  (operation.parameters.getD []).filter (fun p => p.in_ == "query")

def hasRequiredPathParamsOf (operation : OperationObject) : Bool :=
  decide (0 < (pathParamsOf operation).length)

def hasRequiredQueryParamsOf (operation : OperationObject) : Bool :=
  (queryParamsOf operation).any (fun p => p.required.getD false)

def hasRequiredBodyOf (operation : OperationObject) : Bool :=
  (operation.requestBody.bind (fun rb => rb.required)).getD false

def requestSchemaOf (operation : OperationObject) : Option SchemaObject :=
  getFirstSchema (operation.requestBody.bind (fun rb => rb.content))

def bodyTypeOf (operation : OperationObject) (spec : Spec) : String :=
  match requestSchemaOf operation with
  | some rs => schemaToTypeString (some rs) spec 0 []
  | none => "undefined"

/-- generatePathParamsType: every path parameter is rendered without an
optional marker; the declared required flag is never consulted. -/
def generatePathParamsType (params : List ParameterObject) : String :=
  if params.length = 0 then "Record<string, never>"
  else
    "\x7b " ++ joinSep "; " (params.map (fun p =>
      let ty :=
        match p.schema with
        | some sch =>
            if sch.type = some "integer" ∨ sch.type = some "number" then "number"
            else "string"
        | none => "string"
      p.name ++ ": " ++ ty)) ++ " \x7d"

/-- generateQueryParamsType: the optional marker follows the declared
required flag. -/
def generateQueryParamsType (params : List ParameterObject) (spec : Spec) : String :=
  if params.length = 0 then "Record<string, never>"
  else
    "\x7b " ++ joinSep "; " (params.map (fun p =>
      let optional := if p.required.getD false then "" else "?"
      p.name ++ optional ++ ": " ++ schemaToTypeString p.schema spec 0 [])) ++ " \x7d"

/-- generateArgsType: the empty-object default is offered only when no
part of the request is required. -/
def generateArgsType (hasRequiredPathParams hasRequiredQueryParams hasRequiredBody : Bool) :
    String :=
  if ¬ hasRequiredPathParams ∧ ¬ hasRequiredQueryParams ∧ ¬ hasRequiredBody then " = \x7b\x7d"
  else ""

/-- generateHttpCall (axios shape per method). -/
def generateHttpCall (method : String) : String :=
  if jsToLower method = "get" then
    "  const http = getHttpClient();\n  return request(http.get(url, \x7b params: args?.queryParams, ...args?.config \x7d));"
  else if jsToLower method = "delete" then
    "  const http = getHttpClient();\n  return request(http.delete(url, \x7b params: args?.queryParams, data: args?.body, ...args?.config \x7d));"
  else
    "  const http = getHttpClient();\n  return request(http." ++ jsToLower method ++
      "(url, args?.body, \x7b params: args?.queryParams, ...args?.config \x7d));"

/-- generateQueryHook. -/
def generateQueryHook (pascalCaseId operationId argsType : String) : String :=
  "\n// ===== React Query Hook =====\nexport const use" ++ pascalCaseId ++
    "Query = <TData = Response, TError = ErrorResponse>(\n  req: RequestArgs" ++ argsType ++
    ",\n  options?: Omit<UseQueryOptions<Response, TError, TData>, \"queryKey\" | \"queryFn\">\n): UseQueryResult<TData, TError> => \x7b\n  return useQuery(\x7b\n    queryKey: " ++
    operationId ++ "QueryKey(req),\n    queryFn: () => " ++ operationId ++
    "(req),\n    ...options,\n  \x7d);\n\x7d;"

/-- generateSuspenseHook (the body refers to useSuspenseQuery). -/
def generateSuspenseHook (pascalCaseId operationId argsType : String) : String :=
  "\n// ===== Suspense Query Hook =====\nexport const use" ++ pascalCaseId ++
    "SuspenseQuery = <TData = Response, TError = ErrorResponse>(\n  req: RequestArgs" ++
    argsType ++
    ",\n  options?: Omit<UseQueryOptions<Response, TError, TData>, \"queryKey\" | \"queryFn\">\n): UseSuspenseQueryResult<TData, TError> => \x7b\n  return useSuspenseQuery(\x7b\n    queryKey: " ++
    operationId ++ "QueryKey(req),\n    queryFn: () => " ++ operationId ++
    "(req),\n    ...options,\n  \x7d);\n\x7d;"

/-- generateMutationHook. -/
def generateMutationHook (pascalCaseId operationId : String) : String :=
  "\n// ===== Mutation Hook =====\nexport const use" ++ pascalCaseId ++
    "Mutation = <TContext = unknown>(\n  options?: Omit<\n    UseMutationOptions<Response, ErrorResponse, RequestArgs, TContext>,\n    \"mutationFn\"\n  >\n): UseMutationResult<Response, ErrorResponse, RequestArgs, TContext> => \x7b\n  return useMutation(\x7b\n    mutationFn: " ++
    operationId ++ ",\n    ...options,\n  \x7d);\n\x7d;"

/-- generateInfiniteQueryHook: the v5 signature threads the page
parameter as a sixth type argument; v3 and v4 instead demand a
getNextPageParam option. -/
def generateInfiniteQueryHook (pascalCaseId operationId argsType version : String) : String :=
  if version = "v5" then
    "\n// ===== Infinite Query Hook =====\nexport const use" ++ pascalCaseId ++
      "InfiniteQuery = <TPageParam = unknown>(\n  req: RequestArgs" ++ argsType ++
      ",\n  options: Omit<\n    UseInfiniteQueryOptions<Response, ErrorResponse, InfiniteData<Response>, Response, ReturnType<typeof " ++
      operationId ++
      "QueryKey>, TPageParam>,\n    \"queryKey\" | \"queryFn\"\n  >\n): UseInfiniteQueryResult<InfiniteData<Response>, ErrorResponse> => \x7b\n  return useInfiniteQuery(\x7b\n    queryKey: " ++
      operationId ++ "QueryKey(req),\n    queryFn: (\x7b pageParam \x7d) => " ++ operationId ++
      "(\x7b\n      ...req,\n      queryParams: \x7b ...req.queryParams, ...(pageParam as Record<string, unknown>) \x7d,\n    \x7d as RequestArgs),\n    ...options,\n  \x7d);\n\x7d;"
  else
    "\n// ===== Infinite Query Hook =====\nexport const use" ++ pascalCaseId ++
      "InfiniteQuery = <TPageParam = unknown>(\n  req: RequestArgs" ++ argsType ++
      ",\n  options: Omit<\n    UseInfiniteQueryOptions<Response, ErrorResponse, InfiniteData<Response>, Response, ReturnType<typeof " ++
      operationId ++
      "QueryKey>>,\n    \"queryKey\" | \"queryFn\"\n  > & \x7b\n    getNextPageParam: (lastPage: Response, allPages: Response[]) => TPageParam | undefined;\n  \x7d\n): UseInfiniteQueryResult<InfiniteData<Response>, ErrorResponse> => \x7b\n  return useInfiniteQuery(\x7b\n    queryKey: " ++
      operationId ++ "QueryKey(req),\n    queryFn: (\x7b pageParam \x7d) => " ++ operationId ++
      "(\x7b\n      ...req,\n      queryParams: \x7b ...req.queryParams, ...(pageParam as Record<string, unknown>) \x7d,\n    \x7d as RequestArgs),\n    ...options,\n  \x7d);\n\x7d;"

/-- The import list of generateReactQueryImport, in push order; the
suspense entries are version-gated to v5 here. -/
def reactQueryImportsList (config : ReactQueryConfig) (hookOptions : HookOptions) :
    List String :=
  (if hookOptions.queryHook.getD false || hookOptions.suspenseHook.getD false then
    ["useQuery", "type UseQueryOptions", "type UseQueryResult"] else []) ++
  (if hookOptions.suspenseHook.getD false && config.version == "v5" then
    ["useSuspenseQuery", "type UseSuspenseQueryResult"] else []) ++
  (if hookOptions.mutationHook.getD false then
    ["useMutation", "type UseMutationOptions", "type UseMutationResult"] else []) ++
  (if hookOptions.infiniteQueryHook.getD false then
    ["useInfiniteQuery", "type UseInfiniteQueryOptions", "type UseInfiniteQueryResult",
      "type InfiniteData"] else [])

/-- generateReactQueryImport. -/
def generateReactQueryImport (config : ReactQueryConfig) (hookOptions : HookOptions) : String :=
  let imports := reactQueryImportsList config hookOptions
  if imports.length = 0 then ""
  else
    "import \x7b\n  " ++ joinSep ",\n  " imports ++ ",\n\x7d from \"" ++ config.importPath ++
      "\";"

/-- The suspense call-site of generateFileContent: gated only on the
configuration flag, not on the library version. -/
def suspenseHookCodeOf (hookOptions : HookOptions) (pascalCaseId operationId argsType : String) :
    String :=
  if hookOptions.suspenseHook.getD false then
    generateSuspenseHook pascalCaseId operationId argsType
  else ""

/-- The four optional call-sites of generateFileContent, in the order
they are joined into the hooks section. -/
def hookCodesOf (hookOptions : HookOptions) (pascalCaseId operationId argsType version : String) :
    List String :=
  [if hookOptions.queryHook.getD false then
      generateQueryHook pascalCaseId operationId argsType else "",
   suspenseHookCodeOf hookOptions pascalCaseId operationId argsType,
   if hookOptions.infiniteQueryHook.getD false then
      generateInfiniteQueryHook pascalCaseId operationId argsType version else "",
   if hookOptions.mutationHook.getD false then
      generateMutationHook pascalCaseId operationId else ""]

/-- The hooks section: the non-empty call-sites joined by newlines. -/
def hooksSectionOf (hookOptions : HookOptions)
    (pascalCaseId operationId argsType version : String) : String :=
  joinSep "\n" ((hookCodesOf hookOptions pascalCaseId operationId argsType version).filter
    (fun sec => sec ≠ ""))

/-- The relative import path of the generated utilities folder. -/
def utilsRelativePathOf (apiPath : String) : String :=
  strRepeat "../" (1 + ((jsSplit "/" apiPath).filter (fun p => p ≠ "")).length) ++ "__oprq__"

/-- The API URL section of the artifact. -/
def apiUrlSection (specName apiPath : String) : String :=
  "// ===== API URL =====\nconst API_URL = \"" ++ specName ++ ":" ++ apiPath ++
    "\" as const;"

/-- The base cache-key factory section of the artifact: the factory
passes the namespaced URL, the upper-cased method and the full request
argument parts. -/
def queryKeySection (operationId method : String) : String :=
  "// ===== Query Keys =====\nexport const " ++ operationId ++
    "QueryKey = (req: RequestArgs) =>\n  generateQueryKey<typeof API_URL, PathParams, QueryParams, Body>(API_URL, \x7b\n    method: \"" ++
    jsToUpper method ++
    "\",\n    path: req.pathParams,\n    param: req.queryParams,\n    body: req.body,\n  \x7d);"

/-- The RequestArgs interface section: each part's optional marker
follows its required flag. -/
def requestArgsSection (hasP hasQ hasB : Bool) : String :=
  "export interface RequestArgs \x7b\n  pathParams" ++ (if hasP then "" else "?") ++
    ": PathParams;\n  queryParams" ++ (if hasQ then "" else "?") ++
    ": QueryParams;\n  body" ++ (if hasB then "" else "?") ++
    ": Body;\n  config?: RequestConfig;\n\x7d"

/-- The leading doc-comment block of the artifact. -/
def fileHeader (method apiPath : String) (operation : OperationObject)
    (now specName : String) : String :=
  "/**\n * " ++ jsToUpper method ++ " " ++ apiPath ++ "\n * " ++
    (match operation.summary with
     | some s => if s = "" then "Auto-generated API file" else s
     | none => "Auto-generated API file") ++
    "\n * Generated at: " ++ now ++ "\n * Source: " ++ specName ++ "\n */\n"

/-- Everything between the React Query import and the cache-key
factory: the utilities import, the referenced and operation types, the
RequestArgs interface and the API URL constant.  None of it reads the
hook configuration. -/
def fileBodyPre (specName method apiPath : String) (operation : OperationObject)
    (spec : Spec) : String :=
  let schemaDefinitions := generateSchemaDefinitions (extractAllSchemaNames operation spec) spec
  "\nimport \x7b StringReplacer, getHttpClient, request, generateQueryKey, type RequestConfig \x7d from \"" ++
    utilsRelativePathOf apiPath ++ "\";\n\n// ===== Types =====\n" ++
    (if schemaDefinitions = "" then ""
     else "// Referenced Types\n" ++ schemaDefinitions ++ "\n") ++
    "\nexport type PathParams = " ++ generatePathParamsType (pathParamsOf operation) ++
    ";\n\nexport type QueryParams = " ++ generateQueryParamsType (queryParamsOf operation) spec ++
    ";\n\nexport type Body = " ++ bodyTypeOf operation spec ++
    ";\n\nexport type Response = " ++ responseTypeOf (getSuccessResponse operation.responses) spec ++
    ";\n\nexport type ErrorResponse = " ++ errorTypeOf operation.responses spec ++
    ";\n\n" ++
    requestArgsSection (hasRequiredPathParamsOf operation) (hasRequiredQueryParamsOf operation)
      (hasRequiredBodyOf operation) ++
    "\n\n" ++ apiUrlSection specName apiPath ++ "\n\n"

/-- The repository function following the cache-key factory; also
independent of the hook configuration. -/
def fileBodyPost (method apiPath : String) (operation : OperationObject) : String :=
  "\n\n// ===== Repository =====\nexport const " ++ operationIdOf operation method apiPath ++
    " = async (args: RequestArgs" ++
    generateArgsType (hasRequiredPathParamsOf operation) (hasRequiredQueryParamsOf operation)
      (hasRequiredBodyOf operation) ++
    "): Promise<Response> => \x7b\n  const url = new StringReplacer(API_URL).replaceText(args?.pathParams ?? \x7b\x7d);\n" ++
    generateHttpCall method ++ "\n\x7d;\n"

/-- generateFileContent: the full rendered artifact, assembled exactly
as the source template pastes its sections together.  The generation
timestamp is passed in as now; the httpClientPath option of the source
is destructured there but never used by the template and is omitted. -/
def generateFileContent (specName method apiPath : String) (operation : OperationObject)
    (spec : Spec) (config : ReactQueryConfig) (hookOptions : HookOptions) (now : String) :
    String :=
  fileHeader method apiPath operation now specName ++
    generateReactQueryImport config hookOptions ++
    fileBodyPre specName method apiPath operation spec ++
    queryKeySection (operationIdOf operation method apiPath) method ++
    fileBodyPost method apiPath operation ++
    hooksSectionOf hookOptions (toPascalCase (operationIdOf operation method apiPath))
      (operationIdOf operation method apiPath)
      (generateArgsType (hasRequiredPathParamsOf operation)
        (hasRequiredQueryParamsOf operation) (hasRequiredBodyOf operation))
      config.version ++ "\n"

/-- The version gate of the placeholder generator in list.ts: suspense
is emitted only when requested and the version is v5. -/
def placeholderGenerateSuspense (hookOptions : HookOptions) (version : String) : Bool :=
  hookOptions.suspenseHook == some true && version == "v5"

/-! ## Concrete fixtures used by the instance parts of the claims -/

/-- A response carrying a plain string schema as application/json. -/
def strResponse : ResponseObject := ⟨some [("application/json", some (typedSchema "string"))]⟩

/-- A response with no content at all. -/
def bareResponse : ResponseObject := ⟨none⟩

/-- A response map declaring a 200 with a schema and a 204. -/
def with204Responses : List (String × ResponseObject) :=
  [("200", strResponse), ("204", bareResponse)]

/-- An object schema with one optional string field named message. -/
def errSchemaObj : SchemaObject :=
  .mk (some "object") none (some [("message", typedSchema "string")]) none none none none
    none none none none none

/-- A registry holding the error schema under the name Err. -/
def errSpec : Spec := [("Err", errSchemaObj)]

/-- A response whose application/json schema is a reference to Err. -/
def errRefResponse : ResponseObject := ⟨some [("application/json", some (refSchema "Err"))]⟩

/-- A response map declaring 404 and 5XX pointing at the same error
schema. -/
def dupErrResponses : List (String × ResponseObject) :=
  [("404", errRefResponse), ("5XX", errRefResponse)]

/-- The self-referential schema A whose next field refers back to A. -/
def aSchema : SchemaObject :=
  .mk (some "object") none (some [("next", refSchema "A")]) none none none none none none
    none none none

/-- The registry holding the cyclic schema A. -/
def cyclicSpec : Spec := [("A", aSchema)]

/-- A configuration requesting every hook except the paginated one. -/
def suspenseHookOptions : HookOptions := ⟨some true, some true, some true, some false⟩

/-- A configuration requesting no hook at all. -/
def noHookOptions : HookOptions := ⟨some false, some false, some false, some false⟩

/-- The v4 library target. -/
def v4Config : ReactQueryConfig := ⟨"v4", "@tanstack/react-query"⟩

/-- A registry holding a plain string schema under the name Foo. -/
def fooSpec : Spec := [("Foo", typedSchema "string")]

/-- A header-located parameter whose schema references Foo. -/
def headerFooParam : ParameterObject := ⟨"X-Trace", "header", some true, some (refSchema "Foo")⟩

/-- An operation declaring only the header parameter. -/
def headerOnlyOp : OperationObject := ⟨some "ping", none, some [headerFooParam], none, none⟩

/-- The same operation with the header parameter removed. -/
def noParamOp : OperationObject := ⟨some "ping", none, some [], none, none⟩

/-- A path parameter declared with required false. -/
def laxPathParam : ParameterObject := ⟨"userId", "path", some false, none⟩

/-- An operation whose only parameter is the lax path parameter. -/
def laxPathOp : OperationObject := ⟨some "getUser", none, some [laxPathParam], none, none⟩

/-- Erasure of every header- or cookie-located parameter, used to state
what the parameter partition ignores. -/
def dropHeaderCookie (ps : List ParameterObject) : List ParameterObject :=
  ps.filter (fun p => !(p.in_ == "header" || p.in_ == "cookie"))

/-- The lower-case letters the table maps, and their images. -/
def lowerLetters : List Char :=
  ['a', 'b', 'c', 'd', 'e', 'f', 'g', 'h', 'i', 'j', 'k', 'l', 'm', 'n', 'o', 'p',
    'q', 'r', 's', 't', 'u', 'v', 'w', 'x', 'y', 'z']

def upperLetters : List Char :=
  ['A', 'B', 'C', 'D', 'E', 'F', 'G', 'H', 'I', 'J', 'K', 'L', 'M', 'N', 'O', 'P',
    'Q', 'R', 'S', 'T', 'U', 'V', 'W', 'X', 'Y', 'Z']

/-! ## Supporting lemmas -/

theorem schemaSize_lt_of_mem_list {m : SchemaObject} {l : List SchemaObject}
    (hm : m ∈ l) : schemaSize m < schemaListSize l := by
  induction l with
  | nil => cases hm
  | cons hd tl ih =>
    cases hm with
    | head => simp only [schemaListSize]; omega
    | tail _ ht =>
      have := ih ht
      simp only [schemaListSize]
      omega

theorem schemaSize_lt_of_mem_props {kv : String × SchemaObject}
    {l : List (String × SchemaObject)} (hm : kv ∈ l) :
    schemaSize kv.2 < propsListSize l := by
  induction l with
  | nil => cases hm
  | cons hd tl ih =>
    cases hm with
    | head => simp only [propsListSize]; omega
    | tail _ ht =>
      have := ih ht
      simp only [propsListSize]
      omega

theorem size_lt_of_mem_allOf {s : SchemaObject} {l : List SchemaObject} {m : SchemaObject}
    (h : s.allOf = some l) (hm : m ∈ l) : schemaSize m < schemaSize s := by
  cases s with
  | mk t r pr it rq en fm ao oo an ap nl =>
    simp only [SchemaObject.allOf] at h
    subst h
    have h1 := schemaSize_lt_of_mem_list hm
    simp only [schemaSize, listOptSize]
    omega

theorem size_lt_of_mem_oneOf {s : SchemaObject} {l : List SchemaObject} {m : SchemaObject}
    (h : s.oneOf = some l) (hm : m ∈ l) : schemaSize m < schemaSize s := by
  cases s with
  | mk t r pr it rq en fm ao oo an ap nl =>
    simp only [SchemaObject.oneOf] at h
    subst h
    have h1 := schemaSize_lt_of_mem_list hm
    simp only [schemaSize, listOptSize]
    omega

theorem size_lt_of_mem_anyOf {s : SchemaObject} {l : List SchemaObject} {m : SchemaObject}
    (h : s.anyOf = some l) (hm : m ∈ l) : schemaSize m < schemaSize s := by
  cases s with
  | mk t r pr it rq en fm ao oo an ap nl =>
    simp only [SchemaObject.anyOf] at h
    subst h
    have h1 := schemaSize_lt_of_mem_list hm
    simp only [schemaSize, listOptSize]
    omega

theorem optSize_items_lt (s : SchemaObject) : schemaOptSize s.items < schemaOptSize (some s) := by
  cases s with
  | mk t r pr it rq en fm ao oo an ap nl =>
    simp only [SchemaObject.items, schemaOptSize, schemaSize]
    omega

theorem size_lt_of_addProps {s : SchemaObject} {a : SchemaObject}
    (h : s.additionalProperties = some (Sum.inr a)) : schemaSize a < schemaSize s := by
  cases s with
  | mk t r pr it rq en fm ao oo an ap nl =>
    simp only [SchemaObject.additionalProperties] at h
    subst h
    simp only [schemaSize, addPropsSize]
    omega

theorem size_lt_of_mem_properties {s : SchemaObject} {props : List (String × SchemaObject)}
    {kv : String × SchemaObject} (h : s.properties = some props) (hm : kv ∈ props) :
    schemaSize kv.2 < schemaSize s := by
  cases s with
  | mk t r pr it rq en fm ao oo an ap nl =>
    simp only [SchemaObject.properties] at h
    subst h
    have h1 := schemaSize_lt_of_mem_props hm
    simp only [schemaSize, propsOptSize]
    omega

theorem schemaOptSize_pos (schema : Option SchemaObject) : 1 ≤ schemaOptSize schema := by
  cases schema <;> simp only [schemaOptSize] <;> omega

theorem length_filter_mono {α : Type} (l : List α) (p q : α → Bool)
    (h : ∀ a, p a = true → q a = true) :
    (l.filter p).length ≤ (l.filter q).length := by
  induction l with
  | nil => simp
  | cons hd tl ih =>
    by_cases hp : p hd = true
    · simp [List.filter, hp, h hd hp]
      omega
    · simp only [List.filter, hp]
      by_cases hq : q hd = true
      · simp [hq]; omega
      · simp [hq]; exact ih

theorem lookup_mem_keys {α β : Type} [BEq α] [LawfulBEq α] {a : α} {l : List (α × β)} {b : β}
    (h : List.lookup a l = some b) : a ∈ l.map Prod.fst := by
  induction l with
  | nil => simp [List.lookup] at h
  | cons hd tl ih =>
    rw [List.lookup] at h
    split at h
    · rename_i heq
      have : a = hd.1 := eq_of_beq heq
      simp [this]
    · simp only [List.map_cons, List.mem_cons]
      exact Or.inr (ih h)

theorem filter_notMem_cons_lt {keys : List String} {visited : List String} {n : String}
    (hmem : n ∈ keys) (hnv : n ∉ visited) :
    (keys.filter (fun k => decide (k ∉ n :: visited))).length <
      (keys.filter (fun k => decide (k ∉ visited))).length := by
  induction keys with
  | nil => cases hmem
  | cons hd tl ih =>
    by_cases hh : hd = n
    · subst hh
      have h1 : decide (hd ∉ hd :: visited) = false := by simp
      have h2 : decide (hd ∉ visited) = true := by simp [hnv]
      simp only [List.filter, h1, h2, List.length_cons]
      have hmono : ((tl.filter (fun k => decide (k ∉ hd :: visited))).length ≤
          (tl.filter (fun k => decide (k ∉ visited))).length) := by
        apply length_filter_mono
        intro a ha
        simp only [decide_eq_true_eq] at ha ⊢
        intro hc
        exact ha (List.mem_cons_of_mem _ hc)
      omega
    · have hmem' : n ∈ tl := by
        cases hmem with
        | head => exact absurd rfl hh
        | tail _ ht => exact ht
      have heq : decide (hd ∉ n :: visited) = decide (hd ∉ visited) := by
        by_cases hv : hd ∈ visited
        · simp [hv]
        · simp [hv, List.mem_cons, hh]
      cases hv : decide (hd ∉ visited) with
      | true =>
        simp only [List.filter, heq, hv, List.length_cons]
        have := ih hmem'
        omega
      | false =>
        simp only [List.filter, heq, hv]
        exact ih hmem'

theorem unvisitedCount_lt {spec : Spec} {visited : List String} {n : String}
    (hmem : n ∈ spec.map Prod.fst) (hnv : n ∉ visited) :
    unvisitedCount spec (n :: visited) < unvisitedCount spec visited :=
  filter_notMem_cons_lt hmem hnv

theorem specMaxSize_bound {spec : Spec} {n : String} {r : SchemaObject}
    (h : List.lookup n spec = some r) : schemaSize r ≤ specMaxSize spec := by
  induction spec with
  | nil => simp [List.lookup] at h
  | cons hd tl ih =>
    rw [List.lookup] at h
    split at h
    · cases h
      simp only [specMaxSize, List.foldr]
      exact le_max_left _ _
    · have := ih h
      simp only [specMaxSize, List.foldr] at this ⊢
      exact le_trans this (le_max_right _ _)

theorem stsMeasure_ref_lt {s resolved : SchemaObject} {spec : Spec} {visited : List String}
    {refName : String} (hl : List.lookup refName spec = some resolved)
    (hnv : refName ∉ visited) :
    stsMeasure (some resolved) spec (refName :: visited) <
      stsMeasure (some s) spec visited := by
  have hmem : refName ∈ spec.map Prod.fst := lookup_mem_keys hl
  have hk : unvisitedCount spec (refName :: visited) < unvisitedCount spec visited :=
    unvisitedCount_lt hmem hnv
  have hs : schemaSize resolved ≤ specMaxSize spec := specMaxSize_bound hl
  unfold stsMeasure
  have h1 : schemaOptSize (some resolved) = 1 + schemaSize resolved := by
    simp only [schemaOptSize]
  have h2 : 1 ≤ schemaOptSize (some s) := schemaOptSize_pos _
  set k' := unvisitedCount spec (refName :: visited)
  set k := unvisitedCount spec visited
  set S := specMaxSize spec
  calc k' * (S + 1) + schemaOptSize (some resolved)
      ≤ k' * (S + 1) + (1 + S) := by omega
    _ = (k' + 1) * (S + 1) := by ring
    _ ≤ k * (S + 1) := Nat.mul_le_mul_right _ (by omega)
    _ < k * (S + 1) + schemaOptSize (some s) := by omega

theorem stsMeasure_structural_lt {schema' schema : Option SchemaObject} {spec : Spec}
    {visited : List String} (h : schemaOptSize schema' < schemaOptSize schema) :
    stsMeasure schema' spec visited < stsMeasure schema spec visited := by
  unfold stsMeasure
  omega

theorem schemaOptSize_some_lt {a b : SchemaObject} (h : schemaSize a < schemaSize b) :
    schemaOptSize (some a) < schemaOptSize (some b) := by
  simp only [schemaOptSize]; omega

theorem resolveRef_lookup {r : String} {spec : Spec} {x : SchemaObject}
    (h : resolveRef r spec = some x) : List.lookup (getRefName r) spec = some x := by
  unfold resolveRef at h
  split at h
  · exact absurd h (by simp)
  · exact h

/-- Any two sufficient step budgets produce the same resolution result:
the budgeted recursion never reaches its exhaustion branch once the
budget exceeds the resolution measure. -/
theorem stsFuel_congr (μ : Nat) : ∀ (schema : Option SchemaObject) (spec : Spec) (depth : Nat)
    (visited : List String) (n m : Nat), stsMeasure schema spec visited ≤ μ →
    stsMeasure schema spec visited < n → stsMeasure schema spec visited < m →
    stsFuel n schema spec depth visited = stsFuel m schema spec depth visited := by
  induction μ using Nat.strong_induction_on with
  | _ μ ih =>
  intro schema spec depth visited n m hμ hn hm
  cases n with
  | zero => omega
  | succ n' =>
  cases m with
  | zero => omega
  | succ m' =>
  cases schema with
  | none => rfl
  | some s =>
  simp only [stsFuel]
  by_cases hr : s.ref.getD "" ≠ ""
  · simp only [if_pos hr]
    by_cases hv : getRefName (s.ref.getD "") ∈ visited
    · simp only [if_pos hv]
    · simp only [if_neg hv]
      cases hres : resolveRef (s.ref.getD "") spec with
      | none => rfl
      | some resolved =>
        have hlk := resolveRef_lookup hres
        have hlt : stsMeasure (some resolved) spec (getRefName (s.ref.getD "") :: visited) <
            stsMeasure (some s) spec visited := stsMeasure_ref_lt hlk hv
        exact ih _ (by omega) _ _ depth _ _ _ le_rfl (by omega) (by omega)
  · simp only [if_neg hr]
    cases hao : s.allOf with
    | some members =>
      simp only []
      congr 1
      apply List.map_congr_left
      intro x hx
      have hlt := @stsMeasure_structural_lt _ _ spec visited
        (schemaOptSize_some_lt (size_lt_of_mem_allOf hao hx))
      exact ih _ (by omega) _ _ depth _ _ _ le_rfl (by omega) (by omega)
    | none =>
    cases hoo : s.oneOf with
    | some members =>
      simp only []
      congr 1
      apply List.map_congr_left
      intro x hx
      have hlt := @stsMeasure_structural_lt _ _ spec visited
        (schemaOptSize_some_lt (size_lt_of_mem_oneOf hoo hx))
      exact ih _ (by omega) _ _ depth _ _ _ le_rfl (by omega) (by omega)
    | none =>
    cases han : s.anyOf with
    | some members =>
      simp only []
      congr 1
      apply List.map_congr_left
      intro x hx
      have hlt := @stsMeasure_structural_lt _ _ spec visited
        (schemaOptSize_some_lt (size_lt_of_mem_anyOf han hx))
      exact ih _ (by omega) _ _ depth _ _ _ le_rfl (by omega) (by omega)
    | none =>
    simp only []
    by_cases h1 : s.type = some "string"
    · simp only [if_pos h1]
    · simp only [if_neg h1]
      by_cases h2 : s.type = some "integer"
      · simp only [if_pos h2]
      · simp only [if_neg h2]
        by_cases h3 : s.type = some "number"
        · simp only [if_pos h3]
        · simp only [if_neg h3]
          by_cases h4 : s.type = some "boolean"
          · simp only [if_pos h4]
          · simp only [if_neg h4]
            by_cases h5 : s.type = some "array"
            · simp only [if_pos h5]
              have hlt := @stsMeasure_structural_lt _ _ spec visited
                (optSize_items_lt s)
              have heq : stsFuel n' s.items spec depth visited =
                  stsFuel m' s.items spec depth visited :=
                ih _ (by omega) _ _ depth _ _ _ le_rfl (by omega) (by omega)
              rw [heq]
            · simp only [if_neg h5]
              by_cases h6 : s.type = some "object"
              · simp only [if_pos h6]
                cases hpr : s.properties with
                | none =>
                  simp only []
                  cases hap : s.additionalProperties with
                  | none => rfl
                  | some v =>
                    cases v with
                    | inl b => cases b <;> rfl
                    | inr ap =>
                      simp only []
                      have hlt := @stsMeasure_structural_lt _ _ spec visited
                        (schemaOptSize_some_lt (size_lt_of_addProps hap))
                      have heq : stsFuel n' (some ap) spec (depth + 1) visited =
                          stsFuel m' (some ap) spec (depth + 1) visited :=
                        ih _ (by omega) _ _ (depth + 1) _ _ _ le_rfl (by omega) (by omega)
                      rw [heq]
                | some props =>
                  simp only []
                  by_cases hd : depth > 3
                  · simp only [if_pos hd]
                  · simp only [if_neg hd]
                    have hmap : props.map (fun kv =>
                        (if isSafeKey kv.1 then kv.1 else "\"" ++ kv.1 ++ "\"") ++
                          (if (s.required.getD []).contains kv.1 then "" else "?") ++ ": " ++
                          stsFuel n' (some kv.2) spec (depth + 1) visited ++
                          (if kv.2.nullable = some true then " | null" else "")) =
                        props.map (fun kv =>
                        (if isSafeKey kv.1 then kv.1 else "\"" ++ kv.1 ++ "\"") ++
                          (if (s.required.getD []).contains kv.1 then "" else "?") ++ ": " ++
                          stsFuel m' (some kv.2) spec (depth + 1) visited ++
                          (if kv.2.nullable = some true then " | null" else "")) := by
                      apply List.map_congr_left
                      intro kv hkv
                      have hlt := @stsMeasure_structural_lt _ _ spec visited
                        (schemaOptSize_some_lt (size_lt_of_mem_properties hpr hkv))
                      have heq : stsFuel n' (some kv.2) spec (depth + 1) visited =
                          stsFuel m' (some kv.2) spec (depth + 1) visited :=
                        ih _ (by omega) _ _ (depth + 1) _ _ _ le_rfl (by omega) (by omega)
                      rw [heq]
                    rw [hmap]
              · simp only [if_neg h6]

theorem schemaToTypeString_fuel {schema : Option SchemaObject} {spec : Spec} {depth : Nat}
    {visited : List String} {n : Nat} (h : stsMeasure schema spec visited < n) :
    schemaToTypeString schema spec depth visited = stsFuel n schema spec depth visited :=
  stsFuel_congr (stsMeasure schema spec visited) schema spec depth visited _ n le_rfl
    (by omega) h

/-! ## Characteristic equations of schemaToTypeString -/

theorem replaceFirstChars_of_prefix {pat rep s : List Char} (hne : pat ≠ [])
    (hpre : pat.isPrefixOf s = true) :
    replaceFirstChars pat rep s = rep ++ s.drop pat.length := by
  cases s with
  | nil =>
    cases pat with
    | nil => exact absurd rfl hne
    | cons c cs => simp [List.isPrefixOf] at hpre
  | cons c rest => simp [replaceFirstChars, hpre]

theorem getRefName_append (n : String) :
    getRefName ("#/components/schemas/" ++ n) = n := by
  unfold getRefName jsReplaceFirst
  have hdata : ("#/components/schemas/" ++ n).data = "#/components/schemas/".data ++ n.data :=
    String.data_append _ _
  rw [hdata, replaceFirstChars_of_prefix (by decide)
    (List.isPrefixOf_iff_prefix.mpr (List.prefix_append _ _))]
  rw [List.drop_left]
  rfl

theorem refString_ne_empty (n : String) : ("#/components/schemas/" ++ n) ≠ "" := by
  intro h
  have : ("#/components/schemas/" ++ n).data = [] := by rw [h]
  rw [String.data_append] at this
  simp at this

theorem refSchema_getD (n : String) :
    (refSchema n).ref.getD "" = "#/components/schemas/" ++ n := rfl

theorem sts_ref_visited (n : String) (spec : Spec) (depth : Nat) (visited : List String)
    (h : n ∈ visited) :
    schemaToTypeString (some (refSchema n)) spec depth visited = n := by
  rw [schemaToTypeString]
  generalize stsMeasure (some (refSchema n)) spec visited = k
  simp only [stsFuel, refSchema_getD, getRefName_append]
  rw [if_pos (refString_ne_empty n), if_pos h]

theorem sts_ref_expands (n : String) (resolved : SchemaObject) (spec : Spec) (depth : Nat)
    (visited : List String) (hnv : n ∉ visited) (hl : List.lookup n spec = some resolved) :
    schemaToTypeString (some (refSchema n)) spec depth visited =
      schemaToTypeString (some resolved) spec depth (n :: visited) := by
  have hres : resolveRef ("#/components/schemas/" ++ n) spec = some resolved := by
    unfold resolveRef
    rw [getRefName_append]
    have hpre : jsStartsWith "#/components/schemas/" ("#/components/schemas/" ++ n) = true := by
      unfold jsStartsWith
      rw [String.data_append]
      exact List.isPrefixOf_iff_prefix.mpr (List.prefix_append _ _)
    simp [hpre, hl]
  have hlt : stsMeasure (some resolved) spec (n :: visited) <
      stsMeasure (some (refSchema n)) spec visited :=
    @stsMeasure_ref_lt (refSchema n) _ _ _ _ hl hnv
  rw [schemaToTypeString]
  have hk : stsMeasure (some resolved) spec (n :: visited) + 1 ≤
      stsMeasure (some (refSchema n)) spec visited := hlt
  generalize hgen : stsMeasure (some (refSchema n)) spec visited = k at hk
  simp only [stsFuel, refSchema_getD, getRefName_append]
  rw [if_pos (refString_ne_empty n), if_neg hnv, hres]
  rw [schemaToTypeString]
  exact stsFuel_congr (stsMeasure (some resolved) spec (n :: visited)) _ _ _ _ _ _
    le_rfl (by omega) (by omega)

theorem sts_none (spec : Spec) (depth : Nat) (visited : List String) :
    schemaToTypeString none spec depth visited = "unknown" := rfl

theorem sts_string (spec : Spec) (depth : Nat) (visited : List String) :
    schemaToTypeString (some (typedSchema "string")) spec depth visited = "string" := by
  rw [schemaToTypeString]
  generalize stsMeasure (some (typedSchema "string")) spec visited = k
  simp [stsFuel, typedSchema, SchemaObject.ref, SchemaObject.allOf, SchemaObject.oneOf,
    SchemaObject.anyOf, SchemaObject.type, SchemaObject.enum, SchemaObject.format]

theorem sts_string_enum (es : List String) (spec : Spec) (depth : Nat) (visited : List String) :
    schemaToTypeString (some (strEnumSchema es)) spec depth visited =
      joinSep " | " (es.map (fun e => "\"" ++ e ++ "\"")) := by
  rw [schemaToTypeString]
  generalize stsMeasure (some (strEnumSchema es)) spec visited = k
  simp [stsFuel, strEnumSchema, SchemaObject.ref, SchemaObject.allOf, SchemaObject.oneOf,
    SchemaObject.anyOf, SchemaObject.type, SchemaObject.enum]

theorem sts_string_binary (spec : Spec) (depth : Nat) (visited : List String) :
    schemaToTypeString (some (strFormatSchema "binary")) spec depth visited = "Blob" := by
  rw [schemaToTypeString]
  generalize stsMeasure (some (strFormatSchema "binary")) spec visited = k
  simp [stsFuel, strFormatSchema, SchemaObject.ref, SchemaObject.allOf, SchemaObject.oneOf,
    SchemaObject.anyOf, SchemaObject.type, SchemaObject.enum, SchemaObject.format]

theorem sts_string_date (spec : Spec) (depth : Nat) (visited : List String) :
    schemaToTypeString (some (strFormatSchema "date")) spec depth visited = "string" := by
  rw [schemaToTypeString]
  generalize stsMeasure (some (strFormatSchema "date")) spec visited = k
  simp [stsFuel, strFormatSchema, SchemaObject.ref, SchemaObject.allOf, SchemaObject.oneOf,
    SchemaObject.anyOf, SchemaObject.type, SchemaObject.enum, SchemaObject.format]

theorem sts_string_datetime (spec : Spec) (depth : Nat) (visited : List String) :
    schemaToTypeString (some (strFormatSchema "date-time")) spec depth visited = "string" := by
  rw [schemaToTypeString]
  generalize stsMeasure (some (strFormatSchema "date-time")) spec visited = k
  simp [stsFuel, strFormatSchema, SchemaObject.ref, SchemaObject.allOf, SchemaObject.oneOf,
    SchemaObject.anyOf, SchemaObject.type, SchemaObject.enum, SchemaObject.format]

theorem sts_integer (spec : Spec) (depth : Nat) (visited : List String) :
    schemaToTypeString (some (typedSchema "integer")) spec depth visited = "number" := by
  rw [schemaToTypeString]
  generalize stsMeasure (some (typedSchema "integer")) spec visited = k
  simp [stsFuel, typedSchema, SchemaObject.ref, SchemaObject.allOf, SchemaObject.oneOf,
    SchemaObject.anyOf, SchemaObject.type]

theorem sts_number (spec : Spec) (depth : Nat) (visited : List String) :
    schemaToTypeString (some (typedSchema "number")) spec depth visited = "number" := by
  rw [schemaToTypeString]
  generalize stsMeasure (some (typedSchema "number")) spec visited = k
  simp [stsFuel, typedSchema, SchemaObject.ref, SchemaObject.allOf, SchemaObject.oneOf,
    SchemaObject.anyOf, SchemaObject.type]

theorem sts_boolean (spec : Spec) (depth : Nat) (visited : List String) :
    schemaToTypeString (some (typedSchema "boolean")) spec depth visited = "boolean" := by
  rw [schemaToTypeString]
  generalize stsMeasure (some (typedSchema "boolean")) spec visited = k
  simp [stsFuel, typedSchema, SchemaObject.ref, SchemaObject.allOf, SchemaObject.oneOf,
    SchemaObject.anyOf, SchemaObject.type]

theorem sts_array (items : Option SchemaObject) (spec : Spec) (depth : Nat)
    (visited : List String) :
    schemaToTypeString (some (arraySchema items)) spec depth visited =
      schemaToTypeString items spec depth visited ++ "[]" := by
  have hlt : stsMeasure items spec visited < stsMeasure (some (arraySchema items)) spec visited :=
    stsMeasure_structural_lt (optSize_items_lt (arraySchema items))
  have heq : stsFuel (stsMeasure (some (arraySchema items)) spec visited) items spec depth
      visited = schemaToTypeString items spec depth visited := by
    rw [schemaToTypeString]
    exact stsFuel_congr (stsMeasure items spec visited) items spec depth visited
      (stsMeasure (some (arraySchema items)) spec visited)
      (stsMeasure items spec visited + 1) (le_refl _) (by omega) (by omega)
  rw [schemaToTypeString]
  show stsFuel (stsMeasure (some (arraySchema items)) spec visited) items spec depth
      visited ++ "[]" = schemaToTypeString items spec depth visited ++ "[]"
  rw [heq]

theorem sts_object_addProps_true (spec : Spec) (depth : Nat) (visited : List String) :
    schemaToTypeString (some (objNoProps (some (Sum.inl true)))) spec depth visited =
      "Record<string, unknown>" := by
  rw [schemaToTypeString]
  generalize stsMeasure (some (objNoProps (some (Sum.inl true)))) spec visited = k
  simp [stsFuel, objNoProps, SchemaObject.ref, SchemaObject.allOf, SchemaObject.oneOf,
    SchemaObject.anyOf, SchemaObject.type, SchemaObject.properties,
    SchemaObject.additionalProperties]

theorem sts_object_addProps_missing (spec : Spec) (depth : Nat) (visited : List String) :
    schemaToTypeString (some (objNoProps none)) spec depth visited =
      "Record<string, unknown>" := by
  rw [schemaToTypeString]
  generalize stsMeasure (some (objNoProps none)) spec visited = k
  simp [stsFuel, objNoProps, SchemaObject.ref, SchemaObject.allOf, SchemaObject.oneOf,
    SchemaObject.anyOf, SchemaObject.type, SchemaObject.properties,
    SchemaObject.additionalProperties]

theorem sts_object_addProps_schema (vs : SchemaObject) (spec : Spec) (depth : Nat)
    (visited : List String) :
    schemaToTypeString (some (objNoProps (some (Sum.inr vs)))) spec depth visited =
      "Record<string, " ++ schemaToTypeString (some vs) spec (depth + 1) visited ++ ">" := by
  have hsz : schemaSize vs < schemaSize (objNoProps (some (Sum.inr vs))) :=
    @size_lt_of_addProps (objNoProps (some (Sum.inr vs))) vs rfl
  have hlt : stsMeasure (some vs) spec visited <
      stsMeasure (some (objNoProps (some (Sum.inr vs)))) spec visited :=
    stsMeasure_structural_lt (schemaOptSize_some_lt hsz)
  have heq : stsFuel (stsMeasure (some (objNoProps (some (Sum.inr vs)))) spec visited)
      (some vs) spec (depth + 1) visited =
      schemaToTypeString (some vs) spec (depth + 1) visited := by
    rw [schemaToTypeString]
    exact stsFuel_congr (stsMeasure (some vs) spec visited) (some vs) spec (depth + 1)
      visited (stsMeasure (some (objNoProps (some (Sum.inr vs)))) spec visited)
      (stsMeasure (some vs) spec visited + 1) (le_refl _) (by omega) (by omega)
  rw [schemaToTypeString]
  show "Record<string, " ++ stsFuel (stsMeasure (some (objNoProps (some (Sum.inr vs)))) spec
      visited) (some vs) spec (depth + 1) visited ++ ">" =
    "Record<string, " ++ schemaToTypeString (some vs) spec (depth + 1) visited ++ ">"
  rw [heq]

theorem sts_nullable_only (spec : Spec) (depth : Nat) (visited : List String) :
    schemaToTypeString (some nullableOnlySchema) spec depth visited = "unknown | null" := by
  rw [schemaToTypeString]
  generalize stsMeasure (some nullableOnlySchema) spec visited = k
  simp [stsFuel, nullableOnlySchema, SchemaObject.ref, SchemaObject.allOf, SchemaObject.oneOf,
    SchemaObject.anyOf, SchemaObject.type, SchemaObject.nullable]

theorem sts_unclassified (spec : Spec) (depth : Nat) (visited : List String) :
    schemaToTypeString (some emptySchema) spec depth visited = "unknown" ∧
    schemaToTypeString (some (typedSchema "file")) spec depth visited = "unknown" := by
  constructor
  · rw [schemaToTypeString]
    generalize stsMeasure (some emptySchema) spec visited = k
    simp [stsFuel, emptySchema, SchemaObject.ref, SchemaObject.allOf, SchemaObject.oneOf,
      SchemaObject.anyOf, SchemaObject.type, SchemaObject.nullable]
  · rw [schemaToTypeString]
    generalize stsMeasure (some (typedSchema "file")) spec visited = k
    simp [stsFuel, typedSchema, SchemaObject.ref, SchemaObject.allOf, SchemaObject.oneOf,
      SchemaObject.anyOf, SchemaObject.type, SchemaObject.nullable]

/-! ## The claims -/

/-- C1: for every response map, success selection follows the fixed
priority: a 204 entry wins outright with noContent true, no schema and
a void response type, regardless of any other entries; otherwise the
first present of the explicit codes 200, 201, 202, 203 in that order;
otherwise the 2XX wildcard entry; otherwise a default entry is success
only when neither the 4XX nor the 5XX wildcard entry exists; and when
nothing matches, success has no schema.  In particular a map declaring
both a 200 with a schema and a 204 yields noContent with response type
void. -/
theorem c1_success_priority :
    (∀ (rs : List (String × ResponseObject)) (spec : Spec),
      ((List.lookup "204" rs).isSome →
        getSuccessResponse (some rs) = ⟨none, "204", true⟩ ∧
          responseTypeOf (getSuccessResponse (some rs)) spec = "void") ∧
      (List.lookup "204" rs = none →
        ∀ r, List.lookup "200" rs = some r →
          getSuccessResponse (some rs) = ⟨getFirstSchema r.content, "200", false⟩) ∧
      (List.lookup "204" rs = none → List.lookup "200" rs = none →
        ∀ r, List.lookup "201" rs = some r →
          getSuccessResponse (some rs) = ⟨getFirstSchema r.content, "201", false⟩) ∧
      (List.lookup "204" rs = none → List.lookup "200" rs = none →
        List.lookup "201" rs = none →
        ∀ r, List.lookup "202" rs = some r →
          getSuccessResponse (some rs) = ⟨getFirstSchema r.content, "202", false⟩) ∧
      (List.lookup "204" rs = none → List.lookup "200" rs = none →
        List.lookup "201" rs = none → List.lookup "202" rs = none →
        ∀ r, List.lookup "203" rs = some r →
          getSuccessResponse (some rs) = ⟨getFirstSchema r.content, "203", false⟩) ∧
      (List.lookup "204" rs = none → List.lookup "200" rs = none →
        List.lookup "201" rs = none → List.lookup "202" rs = none →
        List.lookup "203" rs = none →
        ∀ r, List.lookup "2XX" rs = some r →
          getSuccessResponse (some rs) = ⟨getFirstSchema r.content, "2XX", false⟩) ∧
      (List.lookup "204" rs = none → List.lookup "200" rs = none →
        List.lookup "201" rs = none → List.lookup "202" rs = none →
        List.lookup "203" rs = none → List.lookup "2XX" rs = none →
        List.lookup "4XX" rs = none → List.lookup "5XX" rs = none →
        ∀ r, List.lookup "default" rs = some r →
          getSuccessResponse (some rs) = ⟨getFirstSchema r.content, "default", false⟩) ∧
      (List.lookup "204" rs = none → List.lookup "200" rs = none →
        List.lookup "201" rs = none → List.lookup "202" rs = none →
        List.lookup "203" rs = none → List.lookup "2XX" rs = none →
        (List.lookup "default" rs = none ∨ (List.lookup "4XX" rs).isSome ∨
          (List.lookup "5XX" rs).isSome) →
        getSuccessResponse (some rs) = ⟨none, "200", false⟩)) ∧
    getSuccessResponse (some with204Responses) = ⟨none, "204", true⟩ ∧
    responseTypeOf (getSuccessResponse (some with204Responses)) [] = "void" := by
  refine ⟨fun rs spec => ⟨?_, ?_, ?_, ?_, ?_, ?_, ?_, ?_⟩, rfl, rfl⟩
  · intro h
    obtain ⟨r, hr⟩ := Option.isSome_iff_exists.mp h
    exact ⟨by simp [getSuccessResponse, hr], by simp [getSuccessResponse, hr, responseTypeOf]⟩
  · intro h204 r h200
    simp [getSuccessResponse, h204, h200, List.findSome?_cons]
  · intro h204 h200 r h201
    simp [getSuccessResponse, h204, h200, h201, List.findSome?_cons]
  · intro h204 h200 h201 r h202
    simp [getSuccessResponse, h204, h200, h201, h202, List.findSome?_cons]
  · intro h204 h200 h201 h202 r h203
    simp [getSuccessResponse, h204, h200, h201, h202, h203, List.findSome?_cons]
  · intro h204 h200 h201 h202 h203 r h2XX
    simp [getSuccessResponse, h204, h200, h201, h202, h203, h2XX, List.findSome?_cons]
  · intro h204 h200 h201 h202 h203 h2XX h4XX h5XX r hdef
    simp [getSuccessResponse, h204, h200, h201, h202, h203, h2XX, h4XX, h5XX, hdef,
      List.findSome?_cons]
  · intro h204 h200 h201 h202 h203 h2XX hcase
    rcases hcase with hdef | h4 | h5
    · cases h4 : List.lookup "4XX" rs <;> cases h5 : List.lookup "5XX" rs <;>
        simp [getSuccessResponse, h204, h200, h201, h202, h203, h2XX, hdef, h4, h5,
          List.findSome?_cons]
    · obtain ⟨r4, hr4⟩ := Option.isSome_iff_exists.mp h4
      cases hdef : List.lookup "default" rs <;>
        simp [getSuccessResponse, h204, h200, h201, h202, h203, h2XX, hdef, hr4,
          List.findSome?_cons]
    · obtain ⟨r5, hr5⟩ := Option.isSome_iff_exists.mp h5
      cases hdef : List.lookup "default" rs <;> cases h4 : List.lookup "4XX" rs <;>
        simp [getSuccessResponse, h204, h200, h201, h202, h203, h2XX, hdef, h4, hr5,
          List.findSome?_cons]

/-- C1 witness: the priority theorem applied to the concrete 204
override map, discharging its hypothesis. -/
theorem c1_success_priority_witness :
    getSuccessResponse (some with204Responses) = ⟨none, "204", true⟩ ∧
      responseTypeOf (getSuccessResponse (some with204Responses)) [] = "void" :=
  (c1_success_priority.1 with204Responses []).1 (by rfl)

set_option maxRecDepth 100000 in
/-- C2: contrary to the claim, the composer of generateFileContent does
not version-gate the suspense call-site: with suspenseHook requested on
the v4 target it still emits the suspense hook body (which calls
useSuspenseQuery), while the import generator omits useSuspenseQuery
for any version below v5, so the emitted file references an unimported
identifier.  Only the placeholder generator of list.ts implements the
claimed gate. -/
theorem c2_suspense_v4_emitted :
    suspenseHookCodeOf suspenseHookOptions "GetUsers" "getUsers" "" ≠ "" ∧
    hooksSectionOf suspenseHookOptions "GetUsers" "getUsers" "" "v4" =
      joinSep "\n" [generateQueryHook "GetUsers" "getUsers" "",
        generateSuspenseHook "GetUsers" "getUsers" "",
        generateMutationHook "GetUsers" "getUsers"] ∧
    "useSuspenseQuery" ∉ reactQueryImportsList v4Config suspenseHookOptions ∧
    placeholderGenerateSuspense suspenseHookOptions "v4" = false := by
  refine ⟨by decide, by decide, by decide, rfl⟩

set_option maxRecDepth 100000 in
/-- C3: the identifier fallback of list.ts derives
getUsersByUserIdOrders from get and the placeholder path as the claim
states, but the fallback inside generateFileContent instead joins the
raw path with underscores, yielding a different (and, with a
placeholder segment, syntactically invalid) identifier. -/
theorem c3_identifier_fallback :
    generateOperationId "get" "/users/\x7buserId\x7d/orders" = "getUsersByUserIdOrders" ∧
    operationIdOf ⟨none, none, none, none, none⟩ "get" "/users/\x7buserId\x7d/orders" =
      "get_users_\x7buserId\x7d_orders" ∧
    operationIdOf ⟨none, none, none, none, none⟩ "get" "/users/\x7buserId\x7d/orders" ≠
      "getUsersByUserIdOrders" := by
  refine ⟨by decide, by decide, by decide⟩

/-- C4 counterexample: the pascal variant is not the raw identifier
with only its first character capitalized (the converter also collapses
dash and underscore pairs), and the conversion is not idempotent on
every string. -/
theorem c4_pascal_counterexample :
    toPascalCase "a_b" = "AB" ∧ specFirstCharCapitalized "a_b" = "A_b" ∧
    toPascalCase "a_b" ≠ specFirstCharCapitalized "a_b" ∧
    toPascalCase (toPascalCase "a_-b") ≠ toPascalCase "a_-b" := by
  refine ⟨by decide, by decide, by decide, by decide⟩

theorem collapseSeparators_id : ∀ {l : List Char}, (∀ c ∈ l, c ≠ '-' ∧ c ≠ '_') →
    collapseSeparators l = l
  | [], _ => rfl
  | [_], _ => rfl
  | c :: d :: rest, h => by
    have hc := h c (List.mem_cons_self c (d :: rest))
    show (if c = '-' ∨ c = '_' then jsUpperChar d :: collapseSeparators rest
      else c :: collapseSeparators (d :: rest)) = c :: d :: rest
    rw [if_neg (fun hor => hor.elim hc.1 hc.2)]
    rw [collapseSeparators_id (fun e he => h e (List.mem_cons_of_mem c he))]

/-- A character that is not a lower-case letter is left unchanged by the
table. -/
theorem jsUpperChar_eq_of_not_lower {c : Char} (h : c ∉ lowerLetters) :
    jsUpperChar c = c := by
  have h1 : c ≠ 'a' := fun he => h (by rw [he]; decide)
  have h2 : c ≠ 'b' := fun he => h (by rw [he]; decide)
  have h3 : c ≠ 'c' := fun he => h (by rw [he]; decide)
  have h4 : c ≠ 'd' := fun he => h (by rw [he]; decide)
  have h5 : c ≠ 'e' := fun he => h (by rw [he]; decide)
  have h6 : c ≠ 'f' := fun he => h (by rw [he]; decide)
  have h7 : c ≠ 'g' := fun he => h (by rw [he]; decide)
  have h8 : c ≠ 'h' := fun he => h (by rw [he]; decide)
  have h9 : c ≠ 'i' := fun he => h (by rw [he]; decide)
  have h10 : c ≠ 'j' := fun he => h (by rw [he]; decide)
  have h11 : c ≠ 'k' := fun he => h (by rw [he]; decide)
  have h12 : c ≠ 'l' := fun he => h (by rw [he]; decide)
  have h13 : c ≠ 'm' := fun he => h (by rw [he]; decide)
  have h14 : c ≠ 'n' := fun he => h (by rw [he]; decide)
  have h15 : c ≠ 'o' := fun he => h (by rw [he]; decide)
  have h16 : c ≠ 'p' := fun he => h (by rw [he]; decide)
  have h17 : c ≠ 'q' := fun he => h (by rw [he]; decide)
  have h18 : c ≠ 'r' := fun he => h (by rw [he]; decide)
  have h19 : c ≠ 's' := fun he => h (by rw [he]; decide)
  have h20 : c ≠ 't' := fun he => h (by rw [he]; decide)
  have h21 : c ≠ 'u' := fun he => h (by rw [he]; decide)
  have h22 : c ≠ 'v' := fun he => h (by rw [he]; decide)
  have h23 : c ≠ 'w' := fun he => h (by rw [he]; decide)
  have h24 : c ≠ 'x' := fun he => h (by rw [he]; decide)
  have h25 : c ≠ 'y' := fun he => h (by rw [he]; decide)
  have h26 : c ≠ 'z' := fun he => h (by rw [he]; decide)
  simp [jsUpperChar, h1, h2, h3, h4, h5, h6, h7, h8, h9, h10, h11, h12, h13, h14, h15,
    h16, h17, h18, h19, h20, h21, h22, h23, h24, h25, h26]

theorem jsUpperChar_lower_maps : ∀ c ∈ lowerLetters, jsUpperChar c ∈ upperLetters := by
  decide

theorem upper_not_lower : ∀ d ∈ upperLetters, d ∉ lowerLetters := by decide

theorem upper_not_sep : ∀ d ∈ upperLetters, d ≠ '-' ∧ d ≠ '_' := by decide

theorem jsUpperChar_idem (c : Char) : jsUpperChar (jsUpperChar c) = jsUpperChar c := by
  by_cases h : c ∈ lowerLetters
  · exact jsUpperChar_eq_of_not_lower
      (upper_not_lower _ (jsUpperChar_lower_maps c h))
  · rw [jsUpperChar_eq_of_not_lower h, jsUpperChar_eq_of_not_lower h]

theorem jsUpperChar_not_sep (c : Char) (h : c ≠ '-' ∧ c ≠ '_') :
    jsUpperChar c ≠ '-' ∧ jsUpperChar c ≠ '_' := by
  by_cases hm : c ∈ lowerLetters
  · exact upper_not_sep _ (jsUpperChar_lower_maps c hm)
  · rw [jsUpperChar_eq_of_not_lower hm]
    exact h

theorem pascal_idem_aux {l : List Char} (h : ∀ c ∈ l, c ≠ '-' ∧ c ≠ '_') :
    capitalizeFirstChar (collapseSeparators (capitalizeFirstChar (collapseSeparators l))) =
      capitalizeFirstChar (collapseSeparators l) := by
  rw [collapseSeparators_id h]
  cases l with
  | nil => rfl
  | cons c rest =>
    have hfree : ∀ d ∈ jsUpperChar c :: rest, d ≠ '-' ∧ d ≠ '_' := by
      intro d hd
      cases hd with
      | head => exact jsUpperChar_not_sep c (h c (List.mem_cons_self c rest))
      | tail _ ht => exact h d (List.mem_cons_of_mem c ht)
    show capitalizeFirstChar (collapseSeparators (jsUpperChar c :: rest)) =
      capitalizeFirstChar (c :: rest)
    rw [collapseSeparators_id hfree]
    show jsUpperChar (jsUpperChar c) :: rest = jsUpperChar c :: rest
    rw [jsUpperChar_idem]

/-- C4 amended: for raw identifiers containing neither a dash nor an
underscore, the pascal variant is exactly the raw identifier with its
first character capitalized and the conversion is idempotent; in
general the converter first collapses each dash-or-underscore-plus-
character pair to the upper-cased character. -/
theorem c4_pascal_amended (s : String) (h : ∀ c ∈ s.data, c ≠ '-' ∧ c ≠ '_') :
    toPascalCase s = specFirstCharCapitalized s ∧
      toPascalCase (toPascalCase s) = toPascalCase s := by
  constructor
  · show (⟨capitalizeFirstChar (collapseSeparators s.data)⟩ : String) =
      ⟨capitalizeFirstChar s.data⟩
    rw [collapseSeparators_id h]
  · show (⟨capitalizeFirstChar (collapseSeparators
        (capitalizeFirstChar (collapseSeparators s.data)))⟩ : String) =
      ⟨capitalizeFirstChar (collapseSeparators s.data)⟩
    rw [pascal_idem_aux h]

/-- C4 witness: the amended statement applied to a concrete separator-
free raw identifier. -/
theorem c4_pascal_amended_witness :
    (∀ c ∈ ("getUsers" : String).data, c ≠ '-' ∧ c ≠ '_') ∧
      (toPascalCase "getUsers" = specFirstCharCapitalized "getUsers" ∧
        toPascalCase (toPascalCase "getUsers") = toPascalCase "getUsers") :=
  ⟨by decide, c4_pascal_amended "getUsers" (by decide)⟩

theorem dedupFirst_nodup (l : List String) : (dedupFirst l).Nodup := by
  unfold dedupFirst
  have henum : l.enum.Nodup := by
    have hfst : (l.enum.map Prod.fst).Nodup := by
      rw [List.enum_map_fst]
      exact List.nodup_range _
    exact hfst.of_map
  have hfilter : (l.enum.filter (fun p => l.indexOf p.2 == p.1)).Nodup :=
    henum.filter _
  refine List.Nodup.map_on ?_ hfilter
  intro x hx y hy hxy
  have hx' : (l.indexOf x.2 == x.1) = true := by
    have := List.of_mem_filter hx
    simpa using this
  have hy' : (l.indexOf y.2 == y.1) = true := by
    have := List.of_mem_filter hy
    simpa using this
  have hx2 : l.indexOf x.2 = x.1 := by simpa using hx'
  have hy2 : l.indexOf y.2 = y.1 := by simpa using hy'
  have h1 : x.1 = y.1 := by rw [← hx2, ← hy2, hxy]
  exact Prod.ext h1 hxy

set_option maxRecDepth 1000000 in
/-- C5: the rendered error union is deduplicated by resolved textual
type on every input (no two members of the rendered member list are
identical), and a response map declaring 404 and 5XX pointing at the
same error schema yields exactly one union member. -/
theorem c5_error_union_dedup :
    (∀ (responses : Option (List (String × ResponseObject))) (spec : Spec),
      (errorTypeMembers responses spec).Nodup) ∧
    errorTypeMembers (some dupErrResponses) errSpec = ["\x7b message?: string \x7d"] ∧
    errorTypeOf (some dupErrResponses) errSpec = "\x7b message?: string \x7d" := by
  refine ⟨fun responses spec => dedupFirst_nodup _, by decide, by decide⟩

set_option maxRecDepth 1000000 in
/-- C6: schema resolution is a total function (its Lean definition is
total on every input); a reference whose target id is already on the
visiting list returns the target's name instead of recursing, and the
self-referential schema A with a next field referring back to A
resolves to a struct whose next field is rendered as the name A. -/
theorem c6_cycle_safety :
    (∀ (n : String) (spec : Spec) (depth : Nat) (visited : List String), n ∈ visited →
      schemaToTypeString (some (refSchema n)) spec depth visited = n) ∧
    schemaToTypeString (some (refSchema "A")) cyclicSpec 0 [] = "\x7b next?: A \x7d" :=
  ⟨fun n spec depth visited h => sts_ref_visited n spec depth visited h, by decide⟩

/-- C6 witness: the visiting-set rule applied at a concrete reference
already being expanded. -/
theorem c6_cycle_safety_witness :
    ("A" : String) ∈ ["A"] ∧
      schemaToTypeString (some (refSchema "A")) [] 0 ["A"] = "A" :=
  ⟨by decide, c6_cycle_safety.1 "A" [] 0 ["A"] (by decide)⟩

/-- C7: the primitive and structural mapping rules of schema
resolution, for nodes carrying no reference and no composite keyword:
plain string, string with enumeration, binary format, date and
date-time formats, integer, number, boolean, array, object with no
properties and additionalProperties true or missing, object with a
schema-valued additionalProperties, a node with no declared type but
the nullable flag, and unclassifiable nodes. -/
theorem c7_primitive_mapping :
    ∀ (spec : Spec) (depth : Nat) (visited : List String),
      schemaToTypeString (some (typedSchema "string")) spec depth visited = "string" ∧
      (∀ es : List String, schemaToTypeString (some (strEnumSchema es)) spec depth visited =
        joinSep " | " (es.map (fun e => "\"" ++ e ++ "\""))) ∧
      schemaToTypeString (some (strFormatSchema "binary")) spec depth visited = "Blob" ∧
      schemaToTypeString (some (strFormatSchema "date")) spec depth visited = "string" ∧
      schemaToTypeString (some (strFormatSchema "date-time")) spec depth visited = "string" ∧
      schemaToTypeString (some (typedSchema "integer")) spec depth visited = "number" ∧
      schemaToTypeString (some (typedSchema "number")) spec depth visited = "number" ∧
      schemaToTypeString (some (typedSchema "boolean")) spec depth visited = "boolean" ∧
      (∀ items : Option SchemaObject,
        schemaToTypeString (some (arraySchema items)) spec depth visited =
          schemaToTypeString items spec depth visited ++ "[]") ∧
      schemaToTypeString (some (objNoProps (some (Sum.inl true)))) spec depth visited =
        "Record<string, unknown>" ∧
      schemaToTypeString (some (objNoProps none)) spec depth visited =
        "Record<string, unknown>" ∧
      (∀ vs : SchemaObject,
        schemaToTypeString (some (objNoProps (some (Sum.inr vs)))) spec depth visited =
          "Record<string, " ++ schemaToTypeString (some vs) spec (depth + 1) visited ++ ">") ∧
      schemaToTypeString (some nullableOnlySchema) spec depth visited = "unknown | null" ∧
      schemaToTypeString (some emptySchema) spec depth visited = "unknown" ∧
      schemaToTypeString (some (typedSchema "file")) spec depth visited = "unknown" :=
  fun spec depth visited =>
    ⟨sts_string spec depth visited,
     fun es => sts_string_enum es spec depth visited,
     sts_string_binary spec depth visited,
     sts_string_date spec depth visited,
     sts_string_datetime spec depth visited,
     sts_integer spec depth visited,
     sts_number spec depth visited,
     sts_boolean spec depth visited,
     fun items => sts_array items spec depth visited,
     sts_object_addProps_true spec depth visited,
     sts_object_addProps_missing spec depth visited,
     fun vs => sts_object_addProps_schema vs spec depth visited,
     sts_nullable_only spec depth visited,
     (sts_unclassified spec depth visited).1,
     (sts_unclassified spec depth visited).2⟩

set_option maxRecDepth 100000 in
/-- C8: path parameters are treated as required no matter what the
declared flag says: the rendered path-parameter type is unchanged under
any rewrite of the required flags, the composed artifact's pathParams
argument is required exactly when at least one path parameter exists,
and the RequestArgs interface renders pathParams without an optional
marker whenever the flag is set; the concrete path parameter declared
with required false is still rendered required. -/
theorem c8_path_params_required :
    (∀ (ps : List ParameterObject) (f : Option Bool),
      generatePathParamsType (ps.map (fun p => ⟨p.name, p.in_, f, p.schema⟩)) =
        generatePathParamsType ps) ∧
    (∀ op : OperationObject, pathParamsOf op ≠ [] → hasRequiredPathParamsOf op = true) ∧
    (∀ hQ hB : Bool, requestArgsSection true hQ hB =
      "export interface RequestArgs \x7b\n  pathParams: PathParams;\n  queryParams" ++
        (if hQ then "" else "?") ++ ": QueryParams;\n  body" ++ (if hB then "" else "?") ++
        ": Body;\n  config?: RequestConfig;\n\x7d") ∧
    generatePathParamsType (pathParamsOf laxPathOp) = "\x7b userId: string \x7d" ∧
    hasRequiredPathParamsOf laxPathOp = true := by
  refine ⟨?_, ?_, ?_, by decide, by decide⟩
  · intro ps f
    cases ps with
    | nil => rfl
    | cons p rest =>
      simp only [generatePathParamsType, List.length_map, List.map_map]
      rfl
  · intro op h
    simp only [hasRequiredPathParamsOf, decide_eq_true_eq]
    exact List.length_pos.mpr h
  · intro hQ hB
    rfl

/-- C8 witness: the flag independence and the requiredness applied at
the concrete operation whose only parameter declares required false. -/
theorem c8_path_params_required_witness :
    generatePathParamsType ((pathParamsOf laxPathOp).map
        (fun p => ⟨p.name, p.in_, some true, p.schema⟩)) =
      generatePathParamsType (pathParamsOf laxPathOp) ∧
    pathParamsOf laxPathOp ≠ [] ∧
    hasRequiredPathParamsOf laxPathOp = true :=
  ⟨c8_path_params_required.1 (pathParamsOf laxPathOp) (some true),
   by exact List.cons_ne_nil _ _,
   c8_path_params_required.2.1 laxPathOp (by exact List.cons_ne_nil _ _)⟩

/-- C9: the rendered artifact of generateFileContent decomposes, for
every hook configuration, into the same header, body and cache-key
factory sections, with only the React Query import and the hooks
section reading the hook flags; two runs differing only in the hook
flags therefore carry the identical cache-key factory text (the
namespaced URL constant lives in the shared body, and the factory
passes the upper-cased method and the full request argument). -/
theorem c9_query_key_stable :
    ∀ (specName method apiPath : String) (operation : OperationObject) (spec : Spec)
      (config : ReactQueryConfig) (now : String) (h h' : HookOptions),
      generateFileContent specName method apiPath operation spec config h now =
        fileHeader method apiPath operation now specName ++
          generateReactQueryImport config h ++
          fileBodyPre specName method apiPath operation spec ++
          queryKeySection (operationIdOf operation method apiPath) method ++
          fileBodyPost method apiPath operation ++
          hooksSectionOf h (toPascalCase (operationIdOf operation method apiPath))
            (operationIdOf operation method apiPath)
            (generateArgsType (hasRequiredPathParamsOf operation)
              (hasRequiredQueryParamsOf operation) (hasRequiredBodyOf operation))
            config.version ++ "\n" ∧
      generateFileContent specName method apiPath operation spec config h' now =
        fileHeader method apiPath operation now specName ++
          generateReactQueryImport config h' ++
          fileBodyPre specName method apiPath operation spec ++
          queryKeySection (operationIdOf operation method apiPath) method ++
          fileBodyPost method apiPath operation ++
          hooksSectionOf h' (toPascalCase (operationIdOf operation method apiPath))
            (operationIdOf operation method apiPath)
            (generateArgsType (hasRequiredPathParamsOf operation)
              (hasRequiredQueryParamsOf operation) (hasRequiredBodyOf operation))
            config.version ++ "\n" ∧
      queryKeySection (operationIdOf operation method apiPath) method =
        "// ===== Query Keys =====\nexport const " ++
          operationIdOf operation method apiPath ++
          "QueryKey = (req: RequestArgs) =>\n  generateQueryKey<typeof API_URL, PathParams, QueryParams, Body>(API_URL, \x7b\n    method: \"" ++
          jsToUpper method ++
          "\",\n    path: req.pathParams,\n    param: req.queryParams,\n    body: req.body,\n  \x7d);" :=
  fun _ _ _ _ _ _ _ _ _ => ⟨rfl, rfl, rfl⟩

set_option maxRecDepth 1000000 in
/-- C10 counterexample: an operation differing from another only by one
header-located parameter whose schema references a registry entry
produces the same path- and query-parameter partitions and required
flags, yet a different generated output, because the referenced-type
collection walks header and cookie parameter schemas too; so some part
of the generated output does depend on them. -/
theorem c10_header_param_counterexample :
    pathParamsOf headerOnlyOp = pathParamsOf noParamOp ∧
    queryParamsOf headerOnlyOp = queryParamsOf noParamOp ∧
    hasRequiredPathParamsOf headerOnlyOp = hasRequiredPathParamsOf noParamOp ∧
    hasRequiredQueryParamsOf headerOnlyOp = hasRequiredQueryParamsOf noParamOp ∧
    extractAllSchemaNames headerOnlyOp fooSpec = ["Foo"] ∧
    extractAllSchemaNames noParamOp fooSpec = [] ∧
    generateSchemaDefinitions (extractAllSchemaNames headerOnlyOp fooSpec) fooSpec =
      "export type Foo = string;" ∧
    generateFileContent "API" "get" "/ping" headerOnlyOp fooSpec v4Config noHookOptions
        "T" ≠
      generateFileContent "API" "get" "/ping" noParamOp fooSpec v4Config noHookOptions
        "T" := by
  refine ⟨rfl, rfl, rfl, rfl, by decide, by decide, by decide, by decide⟩

theorem filter_in_dropHeaderCookie (ps : List ParameterObject) (tag : String)
    (htag : tag ≠ "header" ∧ tag ≠ "cookie") :
    (dropHeaderCookie ps).filter (fun p => p.in_ == tag) =
      ps.filter (fun p => p.in_ == tag) := by
  induction ps with
  | nil => rfl
  | cons p rest ih =>
    by_cases hh : p.in_ = "header" ∨ p.in_ = "cookie"
    · have hdrop : (p.in_ == "header" || p.in_ == "cookie") = true := by
        rcases hh with h | h <;> simp [h]
      have htagp : (p.in_ == tag) = false := by
        rcases hh with h | h
        · simp [h]
          intro he
          exact htag.1 he.symm
        · simp [h]
          intro he
          exact htag.2 he.symm
      simp only [dropHeaderCookie, List.filter] at ih ⊢
      rw [hdrop]
      simp only [Bool.not_true]
      rw [htagp]
      exact ih
    · have hkeep : (!(p.in_ == "header" || p.in_ == "cookie")) = true := by
        push_neg at hh
        simp [hh.1, hh.2]
      simp only [dropHeaderCookie, List.filter] at ih ⊢
      rw [hkeep]
      cases htp : (p.in_ == tag) with
      | true => simp only [List.filter, htp]; rw [ih]
      | false => simp only [List.filter, htp]; exact ih

set_option maxRecDepth 100000 in
/-- C10 amended: declared header and cookie parameters contribute to
neither the path-parameter partition, the query-parameter partition,
nor the required flags derived from them (erasing all of them changes
none of those); their schemas are however still walked by the
referenced-type collection, so the Referenced Types section of the
output can depend on them. -/
theorem c10_header_cookie_partition :
    ∀ (opid summ : Option String) (rb : Option RequestBodyObject)
      (rs : Option (List (String × ResponseObject))) (ps : List ParameterObject),
      pathParamsOf ⟨opid, summ, some (dropHeaderCookie ps), rb, rs⟩ =
        pathParamsOf ⟨opid, summ, some ps, rb, rs⟩ ∧
      queryParamsOf ⟨opid, summ, some (dropHeaderCookie ps), rb, rs⟩ =
        queryParamsOf ⟨opid, summ, some ps, rb, rs⟩ ∧
      hasRequiredPathParamsOf ⟨opid, summ, some (dropHeaderCookie ps), rb, rs⟩ =
        hasRequiredPathParamsOf ⟨opid, summ, some ps, rb, rs⟩ ∧
      hasRequiredQueryParamsOf ⟨opid, summ, some (dropHeaderCookie ps), rb, rs⟩ =
        hasRequiredQueryParamsOf ⟨opid, summ, some ps, rb, rs⟩ := by
  intro opid summ rb rs ps
  have hpath := filter_in_dropHeaderCookie ps "path" (by constructor <;> decide)
  have hquery := filter_in_dropHeaderCookie ps "query" (by constructor <;> decide)
  refine ⟨?_, ?_, ?_, ?_⟩
  · simpa [pathParamsOf] using hpath
  · simpa [queryParamsOf] using hquery
  · simp only [hasRequiredPathParamsOf]
    have : pathParamsOf ⟨opid, summ, some (dropHeaderCookie ps), rb, rs⟩ =
        pathParamsOf ⟨opid, summ, some ps, rb, rs⟩ := by
      simpa [pathParamsOf] using hpath
    rw [this]
  · simp only [hasRequiredQueryParamsOf]
    have : queryParamsOf ⟨opid, summ, some (dropHeaderCookie ps), rb, rs⟩ =
        queryParamsOf ⟨opid, summ, some ps, rb, rs⟩ := by
      simpa [queryParamsOf] using hquery
    rw [this]

end Oprq
